import Mathlib

/-! Omni-wheel robot firmware: encoder decoding, RPM sampling, inverse kinematics.

A shallow embedding of `encoder_handler.c` and `main/src/omni_control.c`.

* C `int` variables are integers (`Int`); every value stored into an `int` after
  arithmetic goes through `wrap32`, the reduction to the 32-bit two's-complement range.
* The `volatile` globals of `encoder_handler.c` form the record `EncoderState`; each C
  function that reads or writes them is a function on that record.
* `float`/`double` arithmetic is exact arithmetic in a field; `sin`, `cos` and `M_PI` of
  `<math.h>` are parameters of the kinematics functions and are instantiated with
  `Real.sin`, `Real.cos` and `Real.pi` in the theorems.
* Calls into other translation units (`LPF_Clear`, `set_motor_speed`,
  `pid_set_setpoint`) are recorded, in program order, as a list of `Call`s.
* Interrupt delivery during `calculate_RPM` is an `Interleaving`: the handlers that run
  to completion between its statements.
* For the dependence of `omni_control` on prior state, `omni_control_mem` runs it on
  explicit memory: the automatic variables whose address is passed on are memory
  locations, `calculate_wheel_speeds_mem` reads and writes through its pointers, and the
  called functions of other translation units are arbitrary state transformers.
* The status line of `task_send_encoder` is a list of characters; `%d` is `dec` and the
  64-byte buffer of `snprintf` keeps at most 63 of them.
-/

namespace Omni

/-! ## Machine integers -/

/-- Largest value of a 32-bit C `int`. -/
def INT_MAX : Int := 2147483647

/-- Smallest value of a 32-bit C `int`. -/
def INT_MIN : Int := -2147483648

/-- Reduction of an integer to the 32-bit two's-complement range: the value an `int`
holds after the result of `+`, `-`, `*`, `/` or unary minus is stored in it. -/
def wrap32 (x : Int) : Int := (x + 2147483648) % 4294967296 - 2147483648

/-! ## encoder_handler.c -/

/-- The file-scope `volatile int` variables of `encoder_handler.c`. -/
structure EncoderState where
  encoder1_count : Int
  encoder2_count : Int
  encoder3_count : Int
  encoder1_a_prev : Int
  encoder1_b_prev : Int
  encoder2_a_prev : Int
  encoder2_b_prev : Int
  encoder3_a_prev : Int
  encoder3_b_prev : Int
  encoder1_rpm : Int
  encoder2_rpm : Int
  encoder3_rpm : Int
  deriving DecidableEq, Repr

/-- Edge interrupt handler of encoder 1. `A` and `B` are the levels returned by
`gpio_get_level(ENCODER_1_A)` and `gpio_get_level(ENCODER_1_B)`. -/
def encoder1_isr_handler (A B : Int) (s : EncoderState) : EncoderState :=
  let s1 : EncoderState :=
    if (s.encoder1_a_prev = 0 ∧ s.encoder1_b_prev = 0 ∧ A = 0 ∧ B = 1) ∨
       (s.encoder1_a_prev = 0 ∧ s.encoder1_b_prev = 1 ∧ A = 1 ∧ B = 1) ∨
       (s.encoder1_a_prev = 1 ∧ s.encoder1_b_prev = 1 ∧ A = 1 ∧ B = 0) ∨
       (s.encoder1_a_prev = 1 ∧ s.encoder1_b_prev = 0 ∧ A = 0 ∧ B = 0)
    then { s with encoder1_count := wrap32 (s.encoder1_count + 1) }
    else { s with encoder1_count := wrap32 (s.encoder1_count - 1) }
  { s1 with encoder1_a_prev := A, encoder1_b_prev := B }

/-- Edge interrupt handler of encoder 2. `A` and `B` are the levels returned by
`gpio_get_level(ENCODER_2_A)` and `gpio_get_level(ENCODER_2_B)`. -/
def encoder2_isr_handler (A B : Int) (s : EncoderState) : EncoderState :=
  let s1 : EncoderState :=
    if (s.encoder2_a_prev = 0 ∧ s.encoder2_b_prev = 0 ∧ A = 0 ∧ B = 1) ∨
       (s.encoder2_a_prev = 0 ∧ s.encoder2_b_prev = 1 ∧ A = 1 ∧ B = 1) ∨
       (s.encoder2_a_prev = 1 ∧ s.encoder2_b_prev = 1 ∧ A = 1 ∧ B = 0) ∨
       (s.encoder2_a_prev = 1 ∧ s.encoder2_b_prev = 0 ∧ A = 0 ∧ B = 0)
    then { s with encoder2_count := wrap32 (s.encoder2_count + 1) }
    else { s with encoder2_count := wrap32 (s.encoder2_count - 1) }
  { s1 with encoder2_a_prev := A, encoder2_b_prev := B }

/-- Edge interrupt handler of encoder 3. `A` and `B` are the levels returned by
`gpio_get_level(ENCODER_3_A)` and `gpio_get_level(ENCODER_3_B)`. -/
def encoder3_isr_handler (A B : Int) (s : EncoderState) : EncoderState :=
  let s1 : EncoderState :=
    if (s.encoder3_a_prev = 0 ∧ s.encoder3_b_prev = 0 ∧ A = 0 ∧ B = 1) ∨
       (s.encoder3_a_prev = 0 ∧ s.encoder3_b_prev = 1 ∧ A = 1 ∧ B = 1) ∨
       (s.encoder3_a_prev = 1 ∧ s.encoder3_b_prev = 1 ∧ A = 1 ∧ B = 0) ∨
       (s.encoder3_a_prev = 1 ∧ s.encoder3_b_prev = 0 ∧ A = 0 ∧ B = 0)
    then { s with encoder3_count := wrap32 (s.encoder3_count + 1) }
    else { s with encoder3_count := wrap32 (s.encoder3_count - 1) }
  { s1 with encoder3_a_prev := A, encoder3_b_prev := B }

/-- Source function `clear_encoders`. -/
def clear_encoders (s : EncoderState) : EncoderState :=
  { s with encoder1_count := 0, encoder2_count := 0, encoder3_count := 0 }

/-- Source function `calculate_RPM`. The macro `PULSE_PER_ROUND` is defined in a header
that is not part of the sources and is a parameter. Integer division by zero traps, so
the result is `none` when `PULSE_PER_ROUND` is `0`; `Int.tdiv` is C's quotient, which
truncates toward zero. -/
def calculate_RPM (PULSE_PER_ROUND : Int) (s : EncoderState) : Option EncoderState :=
  if PULSE_PER_ROUND = 0 then none
  else
    let s1 : EncoderState :=
      { s with encoder1_rpm := wrap32 (Int.tdiv (wrap32 (s.encoder1_count * 60)) PULSE_PER_ROUND) }
    let s2 : EncoderState :=
      { s1 with encoder2_rpm := wrap32 (Int.tdiv (wrap32 (s1.encoder2_count * 60)) PULSE_PER_ROUND) }
    let s3 : EncoderState :=
      { s2 with encoder3_rpm := wrap32 (Int.tdiv (wrap32 (s2.encoder3_count * 60)) PULSE_PER_ROUND) }
    some (clear_encoders s3)

/-! ### Channel-indexed view of the three handlers -/

/-- The three encoder channels. -/
inductive Channel where
  | ch1
  | ch2
  | ch3
  deriving DecidableEq, Repr

/-- The handler that `setup_encoders` registers for the two pins of a channel. -/
def isr_handler : Channel → Int → Int → EncoderState → EncoderState
  | .ch1 => encoder1_isr_handler
  | .ch2 => encoder2_isr_handler
  | .ch3 => encoder3_isr_handler

/-- The pulse count of a channel. -/
def count : Channel → EncoderState → Int
  | .ch1, s => s.encoder1_count
  | .ch2, s => s.encoder2_count
  | .ch3, s => s.encoder3_count

/-- The stored previous `(A, B)` pair of a channel. -/
def prev : Channel → EncoderState → Int × Int
  | .ch1, s => (s.encoder1_a_prev, s.encoder1_b_prev)
  | .ch2, s => (s.encoder2_a_prev, s.encoder2_b_prev)
  | .ch3, s => (s.encoder3_a_prev, s.encoder3_b_prev)

/-- The rpm estimate of a channel. -/
def rpm : Channel → EncoderState → Int
  | .ch1, s => s.encoder1_rpm
  | .ch2, s => s.encoder2_rpm
  | .ch3, s => s.encoder3_rpm

/-- The four forward transitions `(prevA, prevB) -> (A, B)` as the specification lists
them. -/
def forwardTransitions : List ((Int × Int) × (Int × Int)) :=
  [((0, 0), (0, 1)), ((0, 1), (1, 1)), ((1, 1), (1, 0)), ((1, 0), (0, 0))]

/-- The all-zero state the globals are initialised to. -/
def initState : EncoderState :=
  { encoder1_count := 0, encoder2_count := 0, encoder3_count := 0,
    encoder1_a_prev := 0, encoder1_b_prev := 0,
    encoder2_a_prev := 0, encoder2_b_prev := 0,
    encoder3_a_prev := 0, encoder3_b_prev := 0,
    encoder1_rpm := 0, encoder2_rpm := 0, encoder3_rpm := 0 }

/-- One delivery of an edge interrupt: the channel whose handler runs and the levels
`(A, B)` it reads. -/
abbrev IsrEvent : Type := Channel × Int × Int

/-- The handlers of a sequence of edge interrupts, run one after the other. -/
def run_isrs (evs : List IsrEvent) (s : EncoderState) : EncoderState :=
  evs.foldl (fun st e => isr_handler e.1 e.2.1 e.2.2 st) s

/-! ### `calculate_RPM` with interrupts delivered while it runs -/

/-- The statement `encoderJ_rpm = encoderJ_count * 60 / PULSE_PER_ROUND;` of
`calculate_RPM` for channel `j`. -/
def read_step (PULSE_PER_ROUND : Int) : Channel → EncoderState → EncoderState
  | .ch1, s =>
      { s with encoder1_rpm := wrap32 (Int.tdiv (wrap32 (s.encoder1_count * 60)) PULSE_PER_ROUND) }
  | .ch2, s =>
      { s with encoder2_rpm := wrap32 (Int.tdiv (wrap32 (s.encoder2_count * 60)) PULSE_PER_ROUND) }
  | .ch3, s =>
      { s with encoder3_rpm := wrap32 (Int.tdiv (wrap32 (s.encoder3_count * 60)) PULSE_PER_ROUND) }

/-- The statement `encoderJ_count = 0;` of `clear_encoders` for channel `j`. -/
def clear_step : Channel → EncoderState → EncoderState
  | .ch1, s => { s with encoder1_count := 0 }
  | .ch2, s => { s with encoder2_count := 0 }
  | .ch3, s => { s with encoder3_count := 0 }

/-- The edge interrupts delivered while `calculate_RPM` runs, by position: `q0` before
the first statement, `q1 .. q5` between consecutive statements (three rpm assignments,
then the three assignments of `clear_encoders`), `q6` after the last one. A handler
runs to completion before the interrupted code resumes. -/
structure Interleaving where
  q0 : List IsrEvent
  q1 : List IsrEvent
  q2 : List IsrEvent
  q3 : List IsrEvent
  q4 : List IsrEvent
  q5 : List IsrEvent
  q6 : List IsrEvent

/-- Source function `calculate_RPM` (with `clear_encoders` inlined) run under an
interleaving. The code masks no interrupt, so the handlers of each position run between
the statements. The result is the final state and the three count values that the rpm
assignments read. -/
def calculate_RPM_interleaved (PULSE_PER_ROUND : Int) (q : Interleaving) (s : EncoderState) :
    Option (EncoderState × (Int × Int × Int)) :=
  if PULSE_PER_ROUND = 0 then none
  else
    let a0 := run_isrs q.q0 s
    let a1 := run_isrs q.q1 (read_step PULSE_PER_ROUND .ch1 a0)
    let a2 := run_isrs q.q2 (read_step PULSE_PER_ROUND .ch2 a1)
    let a3 := run_isrs q.q3 (read_step PULSE_PER_ROUND .ch3 a2)
    let a4 := run_isrs q.q4 (clear_step .ch1 a3)
    let a5 := run_isrs q.q5 (clear_step .ch2 a4)
    let a6 := run_isrs q.q6 (clear_step .ch3 a5)
    some (a6, (a0.encoder1_count, a1.encoder2_count, a2.encoder3_count))

/-- The interleaving with no interrupt at all. -/
def no_interrupts : Interleaving :=
  { q0 := [], q1 := [], q2 := [], q3 := [], q4 := [], q5 := [], q6 := [] }

/-- All interrupts of an interleaving, in delivery order. -/
def all_events (q : Interleaving) : List IsrEvent :=
  q.q0 ++ (q.q1 ++ (q.q2 ++ (q.q3 ++ (q.q4 ++ (q.q5 ++ q.q6)))))

/-- The interrupts delivered after the count of a channel is read and before it is
zeroed. -/
def window : Channel → Interleaving → List IsrEvent
  | .ch1, q => q.q1 ++ (q.q2 ++ q.q3)
  | .ch2, q => q.q2 ++ (q.q3 ++ q.q4)
  | .ch3, q => q.q3 ++ (q.q4 ++ q.q5)

/-- The count value read for a channel, out of the three values read. -/
def read_of : Channel → Int × Int × Int → Int
  | .ch1, r => r.1
  | .ch2, r => r.2.1
  | .ch3, r => r.2.2

/-- The part of the state that belongs to one channel: its count and its previous
pair. -/
def view (i : Channel) (s : EncoderState) : Int × (Int × Int) :=
  (count i s, prev i s)

/-- The effect of a handler on the view of its own channel. -/
def chan_step (v : Int × (Int × Int)) (A B : Int) : Int × (Int × Int) :=
  (if (v.2.1 = 0 ∧ v.2.2 = 0 ∧ A = 0 ∧ B = 1) ∨
      (v.2.1 = 0 ∧ v.2.2 = 1 ∧ A = 1 ∧ B = 1) ∨
      (v.2.1 = 1 ∧ v.2.2 = 1 ∧ A = 1 ∧ B = 0) ∨
      (v.2.1 = 1 ∧ v.2.2 = 0 ∧ A = 0 ∧ B = 0)
   then wrap32 (v.1 + 1) else wrap32 (v.1 - 1), (A, B))

/-- The effect of a sequence of interrupts on the view of channel `i`. -/
def chan_run (i : Channel) (evs : List IsrEvent) (v : Int × (Int × Int)) :
    Int × (Int × Int) :=
  evs.foldl (fun u e => if e.1 = i then chan_step u e.2.1 e.2.2 else u) v

/-- The decimal digits of a natural number, most significant first, as `printf` writes
them; zero is the single digit `0`. -/
def dec_nat (n : Nat) : List Char :=
  if n = 0 then "0".toList else (Nat.digits 10 n).reverse.map Nat.digitChar

/-- The text `printf` writes for an `int` under `%d`: a minus sign for a negative value,
then the decimal digits of the magnitude. -/
def dec (z : Int) : List Char :=
  if z < 0 then "-".toList ++ dec_nat z.natAbs else dec_nat z.natAbs

/-- The characters `snprintf(buf, size, ...)` stores before the terminating zero: at
most `size - 1` characters of the formatted text. -/
def snprintf (size : Nat) (text : List Char) : List Char :=
  text.take (size - 1)

/-- One iteration of the loop of `task_send_encoder`: `calculate_RPM`, then the message
built by `snprintf(message, sizeof(message), "1:%d;2:%d;3:%d", ...)` in the 64-byte
buffer and handed to `send`. The result is the state after the iteration and the
message. -/
def task_send_encoder_tick (PULSE_PER_ROUND : Int) (s : EncoderState) :
    Option (EncoderState × List Char) :=
  match calculate_RPM PULSE_PER_ROUND s with
  | none => none
  | some s1 =>
      some (s1, snprintf 64
        ("1:".toList ++ dec s1.encoder1_rpm ++ ";2:".toList ++ dec s1.encoder2_rpm ++
          ";3:".toList ++ dec s1.encoder3_rpm))

/-! ## main/src/omni_control.c -/

/-- Source macro `WHEEL_RADIUS` (metres). -/
def WHEEL_RADIUS {α : Type} [Field α] : α := 0.03

/-- Source macro `ROBOT_RADIUS` (metres). -/
def ROBOT_RADIUS {α : Type} [Field α] : α := 0.1528

/-- Source macro `PI`, the decimal constant of `omni_control.c`. -/
def PI {α : Type} [Field α] : α := 3.14159265359

/-- Modelled from the spec: the macro `NUM_MOTORS` of `sys_config.h`, a header that is
not part of the sources; the design has one controller per wheel and three wheels. -/
abbrev NUM_MOTORS : Nat := 3

/-- The fields of `RobotParams` that `omni_control.c` reads and initialises (the type is
declared in `omni_control.h`). -/
structure RobotParams (α : Type) where
  dot_x : α
  dot_y : α
  dot_theta : α
  theta : α
  wheel_radius : α
  robot_radius : α

/-- Source function `rad_s_to_rpm`. -/
def rad_s_to_rpm {α : Type} [Field α] (rad_s : α) : α :=
  (rad_s * 60) / (2 * PI)

/-- The local matrix `H_inv` of `calculate_wheel_speeds`; `sin`, `cos` and `M_PI` are
those of `<math.h>`. -/
def H_inv {α : Type} [Field α] (sin cos : α → α) (M_PI : α) (params : RobotParams α) :
    Fin 3 → Fin 3 → α
  | 0, 0 => -sin params.theta
  | 0, 1 => cos params.theta
  | 0, 2 => params.robot_radius
  | 1, 0 => -sin (M_PI / 3 - params.theta)
  | 1, 1 => -cos (M_PI / 3 - params.theta)
  | 1, 2 => params.robot_radius
  | 2, 0 => sin (M_PI / 3 + params.theta)
  | 2, 1 => -cos (M_PI / 3 + params.theta)
  | 2, 2 => params.robot_radius

/-- Source function `calculate_wheel_speeds`; the result is the triple written through
the pointers `omega1`, `omega2`, `omega3`. -/
def calculate_wheel_speeds {α : Type} [Field α] (sin cos : α → α) (M_PI : α)
    (params : RobotParams α) : α × α × α :=
  let H := H_inv sin cos M_PI params
  ((H 0 0 * params.dot_x + H 0 1 * params.dot_y + H 0 2 * params.dot_theta) / params.wheel_radius,
   (H 1 0 * params.dot_x + H 1 1 * params.dot_y + H 1 2 * params.dot_theta) / params.wheel_radius,
   (H 2 0 * params.dot_x + H 2 1 * params.dot_y + H 2 2 * params.dot_theta) / params.wheel_radius)

/-- A call that `omni_control` makes into another translation unit. `LPF_Clear i v` is
`LPF_Clear(&encoder_lpf[i], v)` and `pid_set_setpoint i v` is
`pid_set_setpoint(&pid_motor[i], v)`. -/
inductive Call (α : Type) where
  | LPF_Clear (i : Nat) (value : α)
  | set_motor_speed (id : Int) (direction : Int) (pulse : Int)
  | pid_set_setpoint (i : Nat) (setpoint : α)

/-- The array `omega` of `omni_control` after the call of `calculate_wheel_speeds`. -/
def omega_array {α : Type} [Field α] (sin cos : α → α) (M_PI : α)
    (dot_x dot_y dot_theta : α) : Fin NUM_MOTORS → α :=
  let robot : RobotParams α :=
    { dot_x := dot_x, dot_y := dot_y, dot_theta := dot_theta, theta := 0,
      wheel_radius := WHEEL_RADIUS, robot_radius := ROBOT_RADIUS }
  let w := calculate_wheel_speeds sin cos M_PI robot
  fun i =>
    match i with
    | 0 => w.1
    | 1 => w.2.1
    | 2 => w.2.2

/-- The array `rpm` of `omni_control` after its loop. -/
def rpm_array {α : Type} [Field α] (sin cos : α → α) (M_PI : α)
    (dot_x dot_y dot_theta : α) (i : Fin NUM_MOTORS) : α :=
  rad_s_to_rpm (omega_array sin cos M_PI dot_x dot_y dot_theta i)

/-- The array `direction` of `omni_control` after the open-loop loop, given the value
`p` that `rpm_to_pulse` returned for the wheel. -/
def direction_of (p : Int) : Int := if p < 0 then 0 else 1

/-- The array `pulse` of `omni_control` after the open-loop loop, given the value `p`
that `rpm_to_pulse` returned for the wheel. -/
def pulse_of (p : Int) : Int := if p < 0 then wrap32 (-p) else p

/-- Source function `omni_control`, as the list of its external calls in program order.
The build flag `NON_PID` and the function `rpm_to_pulse` (of `motor_handler`) are not
part of the sources and are parameters. -/
def omni_control {α : Type} [Field α] (sin cos : α → α) (M_PI : α) (NON_PID : Int)
    (rpm_to_pulse : α → Int) (dot_x dot_y dot_theta : α) : List (Call α) :=
  let rpm := rpm_array sin cos M_PI dot_x dot_y dot_theta
  if NON_PID = 1 then
    let pulse0 : Fin NUM_MOTORS → Int := fun i => rpm_to_pulse (rpm i)
    let direction : Fin NUM_MOTORS → Int := fun i => direction_of (pulse0 i)
    let pulse : Fin NUM_MOTORS → Int := fun i => pulse_of (pulse0 i)
    (List.finRange NUM_MOTORS).map (fun i => Call.LPF_Clear i.val (rpm i)) ++
      [Call.set_motor_speed 1 (direction 0) (pulse 0),
       Call.set_motor_speed 2 (direction 1) (pulse 1),
       Call.set_motor_speed 3 (direction 2) (pulse 2)]
  else
    (List.finRange NUM_MOTORS).flatMap
      (fun i => [Call.LPF_Clear i.val (rpm i), Call.pid_set_setpoint i.val (rpm i)])

/-- The `set_motor_speed` calls of a call list, in order, as `(id, direction, pulse)`. -/
def motor_commands {α : Type} : List (Call α) → List (Int × Int × Int)
  | [] => []
  | Call.set_motor_speed id d p :: cs => (id, d, p) :: motor_commands cs
  | _ :: cs => motor_commands cs

/-- The wheel-speed formula as the specification words it, for a wheel with mounting
angle `phi`: `(-sin(phi - theta)*dot_x + cos(phi - theta)*dot_y + R*dot_theta) / r`. -/
def spec_wheel_speed {α : Type} [Field α] (sin cos : α → α) (phi : α)
    (params : RobotParams α) : α :=
  (-sin (phi - params.theta) * params.dot_x + cos (phi - params.theta) * params.dot_y +
    params.robot_radius * params.dot_theta) / params.wheel_radius

/-- The values handed to `LPF_Clear` in a call list, in order, as `(index, value)`. -/
def lpf_values {α : Type} : List (Call α) → List (Nat × α)
  | [] => []
  | Call.LPF_Clear i v :: cs => (i, v) :: lpf_values cs
  | _ :: cs => lpf_values cs

/-- Truncation toward zero, the rounding of C's conversion from a floating value to
`int`. -/
def trunc_toward_zero {α : Type} [LinearOrderedField α] [FloorRing α] (x : α) : Int :=
  if 0 ≤ x then Int.floor x else Int.ceil x

/-- C's conversion of a floating value to `int`: the truncated value when it is in the
`int` range, undefined (`none`) otherwise. -/
def float_to_int {α : Type} [LinearOrderedField α] [FloorRing α] (x : α) : Option Int :=
  if INT_MIN ≤ trunc_toward_zero x ∧ trunc_toward_zero x ≤ INT_MAX
  then some (trunc_toward_zero x) else none

/-- Source function `m_s_to_rpm`; the `return` converts the quotient to `int`. -/
def m_s_to_rpm {α : Type} [LinearOrderedField α] [FloorRing α] (m_s : α) : Option Int :=
  float_to_int ((m_s * 1000) / PI)

/-! ### `omni_control` on explicit memory -/

/-- Locations of floating-point objects in memory: the automatic variables of
`omni_control` whose address is passed on (the six fields of `robot` and the three
elements of `omega`), and `other n` for every other object of the program (filter and
controller objects, earlier setpoints, ...). -/
inductive Loc where
  | other (n : Nat)
  | robot_dot_x
  | robot_dot_y
  | robot_dot_theta
  | robot_theta
  | robot_wheel_radius
  | robot_robot_radius
  | omega (i : Fin NUM_MOTORS)
  deriving DecidableEq

/-- The addresses of the fields of a `RobotParams` object, read off a pointer to it. -/
def load_params {L α : Type} (m : L → α) (params : RobotParams L) : RobotParams α :=
  { dot_x := m params.dot_x, dot_y := m params.dot_y, dot_theta := m params.dot_theta,
    theta := m params.theta, wheel_radius := m params.wheel_radius,
    robot_radius := m params.robot_radius }

/-- Source function `calculate_wheel_speeds` on memory `m`: `params` holds the addresses
of the fields behind the pointer `params`, and `omega1`, `omega2`, `omega3` are the
three output pointers. `H_inv` is filled from memory first; each assignment then reads
`params` from the memory left by the assignment before it and stores through its
pointer. -/
def calculate_wheel_speeds_mem {L α : Type} [DecidableEq L] [Field α] (sin cos : α → α)
    (M_PI : α) (params : RobotParams L) (omega1 omega2 omega3 : L) (m : L → α) : L → α :=
  let H := H_inv sin cos M_PI (load_params m params)
  let m1 := Function.update m omega1
    ((H 0 0 * m params.dot_x + H 0 1 * m params.dot_y + H 0 2 * m params.dot_theta) /
      m params.wheel_radius)
  let m2 := Function.update m1 omega2
    ((H 1 0 * m1 params.dot_x + H 1 1 * m1 params.dot_y + H 1 2 * m1 params.dot_theta) /
      m1 params.wheel_radius)
  Function.update m2 omega3
    ((H 2 0 * m2 params.dot_x + H 2 1 * m2 params.dot_y + H 2 2 * m2 params.dot_theta) /
      m2 params.wheel_radius)

/-- The state of the program while `omni_control` runs: the encoder globals and the
memory of floating-point objects. -/
structure MState (α : Type) where
  encoder : EncoderState
  mem : Loc → α

/-- A call of `omni_control` into another translation unit, with the values handed
over. -/
inductive ExtCall (α : Type) where
  | LPF_Clear (i : Nat) (value : α)
  | rpm_to_pulse (value : α)
  | set_motor_speed (id : Int) (direction : Int) (pulse : Int)
  | pid_set_setpoint (i : Nat) (setpoint : α)

/-- The functions of other translation units that `omni_control` calls. Their bodies
are not part of the sources: each is an arbitrary function of its arguments and of the
state, and `rpm_to_pulse` also returns its `int` result. -/
structure Externals (α : Type) where
  LPF_Clear : Nat → α → MState α → MState α
  rpm_to_pulse : α → MState α → Int × MState α
  set_motor_speed : Int → Int → Int → MState α → MState α
  pid_set_setpoint : Nat → α → MState α → MState α

/-- The locations of the automatic variables of `omni_control`. -/
def frame_loc : Loc → Bool
  | .other _ => false
  | _ => true

/-- The called functions do not write the automatic variables of their caller, to which
they are handed no pointer. -/
def respects_frame {α : Type} (E : Externals α) : Prop :=
  (∀ i v s l, frame_loc l = true → (E.LPF_Clear i v s).mem l = s.mem l) ∧
  (∀ v s l, frame_loc l = true → (E.rpm_to_pulse v s).2.mem l = s.mem l) ∧
  (∀ a b c s l, frame_loc l = true → (E.set_motor_speed a b c s).mem l = s.mem l) ∧
  (∀ i v s l, frame_loc l = true → (E.pid_set_setpoint i v s).mem l = s.mem l)

/-- The address `&robot` in `omni_control`. -/
def robot_ptr : RobotParams Loc :=
  { dot_x := .robot_dot_x, dot_y := .robot_dot_y, dot_theta := .robot_dot_theta,
    theta := .robot_theta, wheel_radius := .robot_wheel_radius,
    robot_radius := .robot_robot_radius }

/-- The initialisation of the local `robot` in `omni_control`. -/
def init_robot {α : Type} [Field α] (dot_x dot_y dot_theta : α) (m : Loc → α) : Loc → α :=
  Function.update (Function.update (Function.update (Function.update (Function.update
    (Function.update m .robot_dot_x dot_x) .robot_dot_y dot_y) .robot_dot_theta dot_theta)
    .robot_theta 0) .robot_wheel_radius WHEEL_RADIUS) .robot_robot_radius ROBOT_RADIUS

/-- The state of a loop of `omni_control`: the program state, the calls made so far, and
the arrays `direction` and `pulse` (automatic variables whose address is never
taken). -/
structure LoopState (α : Type) where
  st : MState α
  trace : List (ExtCall α)
  direction : Fin NUM_MOTORS → Int
  pulse : Fin NUM_MOTORS → Int

/-- One iteration of the open-loop loop of `omni_control`. -/
def open_loop_body {α : Type} [Field α] (E : Externals α) (a : LoopState α)
    (i : Fin NUM_MOTORS) : LoopState α :=
  let rpm_i := rad_s_to_rpm (a.st.mem (Loc.omega i))
  let s1 := E.LPF_Clear i.val rpm_i a.st
  let r := E.rpm_to_pulse rpm_i s1
  { st := r.2,
    trace := a.trace ++ [ExtCall.LPF_Clear i.val rpm_i, ExtCall.rpm_to_pulse rpm_i],
    direction := Function.update a.direction i (direction_of r.1),
    pulse := Function.update a.pulse i (pulse_of r.1) }

/-- One iteration of the closed-loop loop of `omni_control`. -/
def pid_loop_body {α : Type} [Field α] (E : Externals α) (a : LoopState α)
    (i : Fin NUM_MOTORS) : LoopState α :=
  let rpm_i := rad_s_to_rpm (a.st.mem (Loc.omega i))
  let s1 := E.LPF_Clear i.val rpm_i a.st
  { a with
    st := E.pid_set_setpoint i.val rpm_i s1,
    trace := a.trace ++ [ExtCall.LPF_Clear i.val rpm_i, ExtCall.pid_set_setpoint i.val rpm_i] }

/-- Source function `omni_control` on the program state: the state it leaves and its
calls into other translation units, in program order. `robot` and `omega` live in
memory because their addresses are passed to `calculate_wheel_speeds`; the arrays
`direction` and `pulse` start with arbitrary content `d0`, `p0`. -/
def omni_control_mem {α : Type} [Field α] (sin cos : α → α) (M_PI : α) (NON_PID : Int)
    (E : Externals α) (d0 p0 : Fin NUM_MOTORS → Int) (dot_x dot_y dot_theta : α)
    (s : MState α) : MState α × List (ExtCall α) :=
  let s1 : MState α := { s with mem := init_robot dot_x dot_y dot_theta s.mem }
  let s2 : MState α :=
    { s1 with
      mem := (calculate_wheel_speeds_mem sin cos M_PI robot_ptr
        (Loc.omega 0) (Loc.omega 1) (Loc.omega 2) s1.mem) }
  let a0 : LoopState α := { st := s2, trace := [], direction := d0, pulse := p0 }
  if NON_PID = 1 then
    let a := (List.finRange NUM_MOTORS).foldl (open_loop_body E) a0
    let t1 := E.set_motor_speed 1 (a.direction 0) (a.pulse 0) a.st
    let t2 := E.set_motor_speed 2 (a.direction 1) (a.pulse 1) t1
    let t3 := E.set_motor_speed 3 (a.direction 2) (a.pulse 2) t2
    (t3, a.trace ++
      [ExtCall.set_motor_speed 1 (a.direction 0) (a.pulse 0),
       ExtCall.set_motor_speed 2 (a.direction 1) (a.pulse 1),
       ExtCall.set_motor_speed 3 (a.direction 2) (a.pulse 2)])
  else
    let a := (List.finRange NUM_MOTORS).foldl (pid_loop_body E) a0
    (a.st, a.trace)

/-- Whether a call hands over a wheel setpoint (`LPF_Clear`, `rpm_to_pulse`,
`pid_set_setpoint`); `set_motor_speed` hands over a direction and a pulse rate. -/
def carries_setpoint {α : Type} : ExtCall α → Bool
  | .set_motor_speed _ _ _ => false
  | _ => true

/-- The calls of a call list that hand over a wheel setpoint, in order. -/
def setpoint_calls {α : Type} (cs : List (ExtCall α)) : List (ExtCall α) :=
  cs.filter carries_setpoint

/-- An environment for `omni_control`: `LPF_Clear` and `pid_set_setpoint` store the
value they get in an object of their own, `rpm_to_pulse` answers with the count of
encoder 1, `set_motor_speed` stores nothing. -/
def storing_externals {α : Type} : Externals α :=
  { LPF_Clear := fun i v s => { s with mem := Function.update s.mem (Loc.other i) v },
    rpm_to_pulse := fun _ s => (s.encoder.encoder1_count, s),
    set_motor_speed := fun _ _ _ s => s,
    pid_set_setpoint := fun i v s =>
      { s with mem := Function.update s.mem (Loc.other (100 + i)) v } }

/-- An environment for `omni_control` in which no called function changes the state and
`rpm_to_pulse` answers `-150`. -/
def idle_externals {α : Type} : Externals α :=
  { LPF_Clear := fun _ _ s => s,
    rpm_to_pulse := fun _ s => (-150, s),
    set_motor_speed := fun _ _ _ s => s,
    pid_set_setpoint := fun _ _ s => s }

/-- The calls of a run on explicit memory as calls of `omni_control`: `rpm_to_pulse`
is a function there and leaves no entry. -/
def erase_pulse_calls {α : Type} : List (ExtCall α) → List (Call α)
  | [] => []
  | ExtCall.LPF_Clear i v :: cs => Call.LPF_Clear i v :: erase_pulse_calls cs
  | ExtCall.rpm_to_pulse _ :: cs => erase_pulse_calls cs
  | ExtCall.set_motor_speed a b c :: cs => Call.set_motor_speed a b c :: erase_pulse_calls cs
  | ExtCall.pid_set_setpoint i v :: cs => Call.pid_set_setpoint i v :: erase_pulse_calls cs

/-! ## Auxiliary facts -/

/-- A value already in the `int` range is stored unchanged. -/
theorem wrap32_of_range (x : Int) (hlo : INT_MIN ≤ x) (hhi : x ≤ INT_MAX) : wrap32 x = x := by
  unfold wrap32
  unfold INT_MIN at hlo
  unfold INT_MAX at hhi
  omega

/-- A truncating quotient of an `int` other than `INT_MIN` is again in the `int` range,
whatever the divisor. -/
theorem tdiv_range (a b : Int) (hlo : INT_MIN < a) (hhi : a ≤ INT_MAX) :
    INT_MIN ≤ Int.tdiv a b ∧ Int.tdiv a b ≤ INT_MAX := by
  have h1 : (Int.tdiv a b).natAbs ≤ a.natAbs := by
    rw [Int.natAbs_tdiv]
    exact Nat.div_le_self _ _
  unfold INT_MIN at *
  unfold INT_MAX at *
  omega

/-! ## Quadrature decoder -/

/-- C1 (as amended): for every channel and every starting count `c` with
`INT_MIN ≤ c < INT_MAX`, if the stored previous pair and the levels read form one of the
four forward transitions, the handler leaves the count at `c + 1` and stores `(A, B)` as
the previous pair. -/
theorem forward_transition_increments (i : Channel) (s : EncoderState) (A B : Int)
    (hfwd : (prev i s, (A, B)) ∈ forwardTransitions)
    (hlo : INT_MIN ≤ count i s) (hhi : count i s < INT_MAX) :
    count i (isr_handler i A B s) = count i s + 1 ∧ prev i (isr_handler i A B s) = (A, B) := by
  have hw : wrap32 (count i s + 1) = count i s + 1 :=
    wrap32_of_range _ (by omega) (by omega)
  cases i <;>
    simp only [forwardTransitions, prev, count, List.mem_cons, Prod.mk.injEq,
      List.mem_singleton, List.not_mem_nil, or_false, and_assoc] at hfwd hw ⊢ <;>
    simp [isr_handler, encoder1_isr_handler, encoder2_isr_handler, encoder3_isr_handler,
      hfwd, hw]

/-- Witness for C1 (as amended): channel 2 at count 41 and previous pair `(0, 1)` reads
`(1, 1)` and ends at count 42. -/
theorem forward_transition_increments_witness :
    count .ch2 (isr_handler .ch2 1 1
        { initState with encoder2_count := 41, encoder2_a_prev := 0, encoder2_b_prev := 1 }) =
      41 + 1 ∧
    prev .ch2 (isr_handler .ch2 1 1
        { initState with encoder2_count := 41, encoder2_a_prev := 0, encoder2_b_prev := 1 }) =
      (1, 1) :=
  forward_transition_increments .ch2
    { initState with encoder2_count := 41, encoder2_a_prev := 0, encoder2_b_prev := 1 } 1 1
    (by decide) (by decide) (by decide)

/-- C1 (as stated) fails at the top of the `int` range: channel 1 at count
`2147483647` with previous pair `(0, 0)` reads the forward pair `(0, 1)` and ends at
count `-2147483648`, not at `2147483647 + 1`. -/
theorem forward_transition_at_int_max :
    (prev .ch1 { initState with encoder1_count := 2147483647 }, ((0 : Int), (1 : Int))) ∈
      forwardTransitions ∧
    count .ch1 (isr_handler .ch1 0 1 { initState with encoder1_count := 2147483647 }) =
      -2147483648 ∧
    count .ch1 (isr_handler .ch1 0 1 { initState with encoder1_count := 2147483647 }) ≠
      count .ch1 { initState with encoder1_count := 2147483647 } + 1 := by
  decide

/-- C2 (as amended): for every channel and every starting count `c` with
`INT_MIN < c ≤ INT_MAX`, if the stored previous pair and the levels read are not one of
the four forward transitions (in particular for each of the twelve other pairs of binary
states), the handler leaves the count at `c - 1` and stores `(A, B)` as the previous
pair. -/
theorem other_transition_decrements (i : Channel) (s : EncoderState) (A B : Int)
    (hnot : (prev i s, (A, B)) ∉ forwardTransitions)
    (hlo : INT_MIN < count i s) (hhi : count i s ≤ INT_MAX) :
    count i (isr_handler i A B s) = count i s - 1 ∧ prev i (isr_handler i A B s) = (A, B) := by
  have hw : wrap32 (count i s - 1) = count i s - 1 :=
    wrap32_of_range _ (by omega) (by omega)
  cases i <;>
    simp only [forwardTransitions, prev, count, List.mem_cons, Prod.mk.injEq,
      List.mem_singleton, List.not_mem_nil, or_false, and_assoc] at hnot hw ⊢ <;>
    simp [isr_handler, encoder1_isr_handler, encoder2_isr_handler, encoder3_isr_handler,
      hnot, hw]

/-- Witness for C2 (as amended): channel 3 at count 10 and previous pair `(0, 0)` reads
the dual-bit change `(1, 1)` and ends at count 9. -/
theorem other_transition_decrements_witness :
    count .ch3 (isr_handler .ch3 1 1 { initState with encoder3_count := 10 }) = 10 - 1 ∧
    prev .ch3 (isr_handler .ch3 1 1 { initState with encoder3_count := 10 }) = (1, 1) :=
  other_transition_decrements .ch3 { initState with encoder3_count := 10 } 1 1
    (by decide) (by decide) (by decide)

/-- C2 (as stated) fails at the bottom of the `int` range: channel 1 at count
`-2147483648` with previous pair `(0, 0)` reads the unchanged pair `(0, 0)` and ends at
count `2147483647`, not at `-2147483648 - 1`. -/
theorem other_transition_at_int_min :
    (prev .ch1 { initState with encoder1_count := -2147483648 }, ((0 : Int), (0 : Int))) ∉
      forwardTransitions ∧
    count .ch1 (isr_handler .ch1 0 0 { initState with encoder1_count := -2147483648 }) =
      2147483647 ∧
    count .ch1 (isr_handler .ch1 0 0 { initState with encoder1_count := -2147483648 }) ≠
      count .ch1 { initState with encoder1_count := -2147483648 } - 1 := by
  decide

/-! ## Velocity sampler -/

/-- C3: for every state whose three products `count * 60` fit in a 32-bit `int` and
every non-zero `PULSE_PER_ROUND`, `calculate_RPM` returns, sets each rpm to the
truncating quotient `(count * 60) / PULSE_PER_ROUND`, sets the three counts to `0` and
changes nothing else. -/
theorem calculate_RPM_quotient_and_reset (PULSE_PER_ROUND : Int) (s : EncoderState)
    (hP : PULSE_PER_ROUND ≠ 0)
    (h1 : INT_MIN ≤ s.encoder1_count * 60 ∧ s.encoder1_count * 60 ≤ INT_MAX)
    (h2 : INT_MIN ≤ s.encoder2_count * 60 ∧ s.encoder2_count * 60 ≤ INT_MAX)
    (h3 : INT_MIN ≤ s.encoder3_count * 60 ∧ s.encoder3_count * 60 ≤ INT_MAX) :
    calculate_RPM PULSE_PER_ROUND s =
      some { s with
        encoder1_rpm := Int.tdiv (s.encoder1_count * 60) PULSE_PER_ROUND,
        encoder2_rpm := Int.tdiv (s.encoder2_count * 60) PULSE_PER_ROUND,
        encoder3_rpm := Int.tdiv (s.encoder3_count * 60) PULSE_PER_ROUND,
        encoder1_count := 0, encoder2_count := 0, encoder3_count := 0 } := by
  have key : ∀ c : Int, INT_MIN ≤ c * 60 ∧ c * 60 ≤ INT_MAX →
      wrap32 (Int.tdiv (wrap32 (c * 60)) PULSE_PER_ROUND) = Int.tdiv (c * 60) PULSE_PER_ROUND := by
    intro c hc
    rw [wrap32_of_range _ hc.1 hc.2]
    have hne : INT_MIN < c * 60 := by
      unfold INT_MIN at *
      omega
    have hr := tdiv_range (c * 60) PULSE_PER_ROUND hne hc.2
    exact wrap32_of_range _ hr.1 hr.2
  simp [calculate_RPM, clear_encoders, hP, key _ h1, key _ h2, key _ h3]

/-- Witness for C3: a count of 720 on channel 1 with `PULSE_PER_ROUND = 12` gives rpm
3600 and count 0. -/
theorem calculate_RPM_quotient_and_reset_witness :
    calculate_RPM 12 { initState with encoder1_count := 720 } =
      some { initState with encoder1_rpm := 3600, encoder1_count := 0 } :=
  (calculate_RPM_quotient_and_reset 12 { initState with encoder1_count := 720 }
    (by decide) (by decide) (by decide) (by decide)).trans (by decide)

/-! ## Inverse kinematics -/

/-- The loop indices `0 .. NUM_MOTORS - 1` of `omni_control`. -/
theorem finRange_NUM_MOTORS : List.finRange NUM_MOTORS = [0, 1, 2] := by
  decide

/-- C4 (as amended): over the reals, for every parameter record with non-zero wheel
radius, wheel `k` gets
`(-sin(phi_k + theta)*dot_x + cos(phi_k + theta)*dot_y + R*dot_theta) / r` with
`phi_1 = 0`, `phi_2 = 2π/3` (120 degrees) and `phi_3 = -2π/3` (-120 degrees). -/
theorem calculate_wheel_speeds_formula (p : RobotParams ℝ) (hr : p.wheel_radius ≠ 0) :
    calculate_wheel_speeds Real.sin Real.cos Real.pi p =
      ((-Real.sin (0 + p.theta) * p.dot_x + Real.cos (0 + p.theta) * p.dot_y +
          p.robot_radius * p.dot_theta) / p.wheel_radius,
       (-Real.sin (2 * Real.pi / 3 + p.theta) * p.dot_x +
          Real.cos (2 * Real.pi / 3 + p.theta) * p.dot_y +
          p.robot_radius * p.dot_theta) / p.wheel_radius,
       (-Real.sin (-(2 * Real.pi / 3) + p.theta) * p.dot_x +
          Real.cos (-(2 * Real.pi / 3) + p.theta) * p.dot_y +
          p.robot_radius * p.dot_theta) / p.wheel_radius) := by
  have hr0 := hr
  have e2 : 2 * Real.pi / 3 + p.theta = Real.pi - (Real.pi / 3 - p.theta) := by ring
  have e3 : -(2 * Real.pi / 3) + p.theta = (Real.pi / 3 + p.theta) - Real.pi := by ring
  rw [e2, e3, Real.sin_pi_sub, Real.cos_pi_sub, Real.sin_sub_pi, Real.cos_sub_pi]
  simp [calculate_wheel_speeds, H_inv]

/-- Witness for C4 (as amended): the geometry of `omni_control` with a unit lateral
command. -/
theorem calculate_wheel_speeds_formula_witness :
    calculate_wheel_speeds Real.sin Real.cos Real.pi
        { dot_x := 0, dot_y := 1, dot_theta := 0, theta := 0,
          wheel_radius := WHEEL_RADIUS, robot_radius := ROBOT_RADIUS } =
      ((-Real.sin (0 + 0) * 0 + Real.cos (0 + 0) * 1 + ROBOT_RADIUS * 0) / WHEEL_RADIUS,
       (-Real.sin (2 * Real.pi / 3 + 0) * 0 + Real.cos (2 * Real.pi / 3 + 0) * 1 +
          ROBOT_RADIUS * 0) / WHEEL_RADIUS,
       (-Real.sin (-(2 * Real.pi / 3) + 0) * 0 + Real.cos (-(2 * Real.pi / 3) + 0) * 1 +
          ROBOT_RADIUS * 0) / WHEEL_RADIUS) :=
  calculate_wheel_speeds_formula
    { dot_x := 0, dot_y := 1, dot_theta := 0, theta := 0,
      wheel_radius := WHEEL_RADIUS, robot_radius := ROBOT_RADIUS }
    (by norm_num [WHEEL_RADIUS])

/-- C4 (as stated) fails: with `theta = 0` and a unit lateral command the code gives
wheels 2 and 3 the speed `-(1/2)/r` where the specification's formula with
`phi_2 = π/3`, `phi_3 = -π/3` gives `(1/2)/r`; with `theta = π/2` and a unit forward
command the code gives wheel 1 the speed `-1/r` where the formula with `phi_1 = 0`
gives `1/r`. -/
theorem calculate_wheel_speeds_not_spec_formula :
    (calculate_wheel_speeds Real.sin Real.cos Real.pi
        { dot_x := 0, dot_y := 1, dot_theta := 0, theta := 0,
          wheel_radius := 1, robot_radius := 0 }).2.1 ≠
      spec_wheel_speed Real.sin Real.cos (Real.pi / 3)
        { dot_x := 0, dot_y := 1, dot_theta := 0, theta := 0,
          wheel_radius := 1, robot_radius := 0 } ∧
    (calculate_wheel_speeds Real.sin Real.cos Real.pi
        { dot_x := 0, dot_y := 1, dot_theta := 0, theta := 0,
          wheel_radius := 1, robot_radius := 0 }).2.2 ≠
      spec_wheel_speed Real.sin Real.cos (-(Real.pi / 3))
        { dot_x := 0, dot_y := 1, dot_theta := 0, theta := 0,
          wheel_radius := 1, robot_radius := 0 } ∧
    (calculate_wheel_speeds Real.sin Real.cos Real.pi
        { dot_x := 1, dot_y := 0, dot_theta := 0, theta := Real.pi / 2,
          wheel_radius := 1, robot_radius := 0 }).1 ≠
      spec_wheel_speed Real.sin Real.cos 0
        { dot_x := 1, dot_y := 0, dot_theta := 0, theta := Real.pi / 2,
          wheel_radius := 1, robot_radius := 0 } := by
  refine ⟨?_, ?_, ?_⟩
  · simp [calculate_wheel_speeds, H_inv, spec_wheel_speed, Real.cos_pi_div_three]
    norm_num
  · simp [calculate_wheel_speeds, H_inv, spec_wheel_speed, Real.cos_pi_div_three]
    norm_num
  · simp [calculate_wheel_speeds, H_inv, spec_wheel_speed]
    norm_num

/-- C5: over the reals, for every parameter record (so for every `theta`) the
`(dot_x, dot_y)` coefficients of the three rows of `H_inv` are `(-sin psi_k, cos psi_k)`
with `psi_1 = theta`, `psi_2 = theta + 2π/3` and `psi_3 = theta - 2π/3`; each row is a
unit vector, and the three angles are pairwise `2π/3` (120 degrees) apart, the third
pair up to a full turn. -/
theorem H_inv_rows_120_degrees_apart (p : RobotParams ℝ) :
    (H_inv Real.sin Real.cos Real.pi p 0 0 = -Real.sin p.theta ∧
      H_inv Real.sin Real.cos Real.pi p 0 1 = Real.cos p.theta) ∧
    (H_inv Real.sin Real.cos Real.pi p 1 0 = -Real.sin (p.theta + 2 * Real.pi / 3) ∧
      H_inv Real.sin Real.cos Real.pi p 1 1 = Real.cos (p.theta + 2 * Real.pi / 3)) ∧
    (H_inv Real.sin Real.cos Real.pi p 2 0 = -Real.sin (p.theta - 2 * Real.pi / 3) ∧
      H_inv Real.sin Real.cos Real.pi p 2 1 = Real.cos (p.theta - 2 * Real.pi / 3)) ∧
    (∀ k : Fin 3, H_inv Real.sin Real.cos Real.pi p k 0 ^ 2 +
      H_inv Real.sin Real.cos Real.pi p k 1 ^ 2 = 1) ∧
    ((p.theta + 2 * Real.pi / 3) - p.theta = 2 * Real.pi / 3 ∧
      p.theta - (p.theta - 2 * Real.pi / 3) = 2 * Real.pi / 3 ∧
      (p.theta - 2 * Real.pi / 3) + 2 * Real.pi - (p.theta + 2 * Real.pi / 3) =
        2 * Real.pi / 3) := by
  have e2 : p.theta + 2 * Real.pi / 3 = Real.pi - (Real.pi / 3 - p.theta) := by ring
  have e3 : p.theta - 2 * Real.pi / 3 = (Real.pi / 3 + p.theta) - Real.pi := by ring
  refine ⟨⟨?_, ?_⟩, ⟨?_, ?_⟩, ⟨?_, ?_⟩, ?_, ?_, ?_, ?_⟩
  · simp [H_inv]
  · simp [H_inv]
  · rw [e2, Real.sin_pi_sub]
    simp [H_inv]
  · rw [e2, Real.cos_pi_sub]
    simp [H_inv]
  · rw [e3, Real.sin_sub_pi]
    simp [H_inv]
  · rw [e3, Real.cos_sub_pi]
    simp [H_inv]
  · intro k
    fin_cases k
    · simp only [H_inv, Fin.zero_eta, neg_sq]
      exact Real.sin_sq_add_cos_sq p.theta
    · simp only [H_inv, Fin.mk_one, neg_sq]
      exact Real.sin_sq_add_cos_sq _
    · simp only [H_inv, Fin.reduceFinMk, neg_sq]
      exact Real.sin_sq_add_cos_sq _
  · ring
  · ring
  · ring

/-- C6: over the reals, for every `theta`, every robot radius `R` and every wheel radius
`r ≠ 0`, the all-zero command gives three zero wheel speeds. -/
theorem calculate_wheel_speeds_zero_command (theta R r : ℝ) (hr : r ≠ 0) :
    calculate_wheel_speeds Real.sin Real.cos Real.pi
        { dot_x := 0, dot_y := 0, dot_theta := 0, theta := theta,
          wheel_radius := r, robot_radius := R } = (0, 0, 0) := by
  have hr0 := hr
  simp [calculate_wheel_speeds, H_inv]

/-- Witness for C6: heading offset 1 rad with the geometry of `omni_control`. -/
theorem calculate_wheel_speeds_zero_command_witness :
    calculate_wheel_speeds Real.sin Real.cos Real.pi
        { dot_x := 0, dot_y := 0, dot_theta := 0, theta := 1,
          wheel_radius := WHEEL_RADIUS, robot_radius := ROBOT_RADIUS } = (0, 0, 0) :=
  calculate_wheel_speeds_zero_command 1 ROBOT_RADIUS WHEEL_RADIUS (by norm_num [WHEEL_RADIUS])

/-- C7: over the reals, for every `dot_theta`, robot radius `R` and wheel radius `r ≠ 0`,
with `theta = 0` and `dot_x = dot_y = 0` the first wheel speed is `(R * dot_theta) / r`. -/
theorem calculate_wheel_speeds_pure_rotation (dot_theta R r : ℝ) (hr : r ≠ 0) :
    (calculate_wheel_speeds Real.sin Real.cos Real.pi
        { dot_x := 0, dot_y := 0, dot_theta := dot_theta, theta := 0,
          wheel_radius := r, robot_radius := R }).1 = (R * dot_theta) / r := by
  have hr0 := hr
  simp [calculate_wheel_speeds, H_inv]

/-- Witness for C7: `dot_theta = 3`, `R = 2`, `r = 4` gives `omega1 = 3 / 2`. -/
theorem calculate_wheel_speeds_pure_rotation_witness :
    (calculate_wheel_speeds Real.sin Real.cos Real.pi
        { dot_x := 0, dot_y := 0, dot_theta := 3, theta := 0,
          wheel_radius := 4, robot_radius := 2 }).1 = 3 / 2 :=
  (calculate_wheel_speeds_pure_rotation 3 2 4 (by norm_num)).trans (by norm_num)

/-! ## Open-loop controller -/

/-- C8: over the reals, in open-loop mode (`NON_PID = 1`), for every command and every
`rpm_to_pulse` whose value `p_k` for wheel `k` lies in the `int` range and is not
`INT_MIN`, the `set_motor_speed` calls of `omni_control` are, in order, those for wheel
ids 1, 2, 3, each with direction `0` and magnitude `-p_k` when `p_k < 0` and direction
`1` and magnitude `p_k` otherwise, where
`p_k = rpm_to_pulse (rad_s_to_rpm omega_k)` is computed from that wheel's own speed. -/
theorem omni_control_open_loop_commands (rpm_to_pulse : ℝ → Int) (dot_x dot_y dot_theta : ℝ)
    (h1 : INT_MIN < rpm_to_pulse (rpm_array Real.sin Real.cos Real.pi dot_x dot_y dot_theta 0) ∧
      rpm_to_pulse (rpm_array Real.sin Real.cos Real.pi dot_x dot_y dot_theta 0) ≤ INT_MAX)
    (h2 : INT_MIN < rpm_to_pulse (rpm_array Real.sin Real.cos Real.pi dot_x dot_y dot_theta 1) ∧
      rpm_to_pulse (rpm_array Real.sin Real.cos Real.pi dot_x dot_y dot_theta 1) ≤ INT_MAX)
    (h3 : INT_MIN < rpm_to_pulse (rpm_array Real.sin Real.cos Real.pi dot_x dot_y dot_theta 2) ∧
      rpm_to_pulse (rpm_array Real.sin Real.cos Real.pi dot_x dot_y dot_theta 2) ≤ INT_MAX) :
    (rpm_array Real.sin Real.cos Real.pi dot_x dot_y dot_theta 0 =
        rad_s_to_rpm (calculate_wheel_speeds Real.sin Real.cos Real.pi
          { dot_x := dot_x, dot_y := dot_y, dot_theta := dot_theta, theta := 0,
            wheel_radius := WHEEL_RADIUS, robot_radius := ROBOT_RADIUS }).1 ∧
      rpm_array Real.sin Real.cos Real.pi dot_x dot_y dot_theta 1 =
        rad_s_to_rpm (calculate_wheel_speeds Real.sin Real.cos Real.pi
          { dot_x := dot_x, dot_y := dot_y, dot_theta := dot_theta, theta := 0,
            wheel_radius := WHEEL_RADIUS, robot_radius := ROBOT_RADIUS }).2.1 ∧
      rpm_array Real.sin Real.cos Real.pi dot_x dot_y dot_theta 2 =
        rad_s_to_rpm (calculate_wheel_speeds Real.sin Real.cos Real.pi
          { dot_x := dot_x, dot_y := dot_y, dot_theta := dot_theta, theta := 0,
            wheel_radius := WHEEL_RADIUS, robot_radius := ROBOT_RADIUS }).2.2) ∧
    motor_commands
        (omni_control Real.sin Real.cos Real.pi 1 rpm_to_pulse dot_x dot_y dot_theta) =
      [(1,
        if rpm_to_pulse (rpm_array Real.sin Real.cos Real.pi dot_x dot_y dot_theta 0) < 0
          then 0 else 1,
        if rpm_to_pulse (rpm_array Real.sin Real.cos Real.pi dot_x dot_y dot_theta 0) < 0
          then -rpm_to_pulse (rpm_array Real.sin Real.cos Real.pi dot_x dot_y dot_theta 0)
          else rpm_to_pulse (rpm_array Real.sin Real.cos Real.pi dot_x dot_y dot_theta 0)),
       (2,
        if rpm_to_pulse (rpm_array Real.sin Real.cos Real.pi dot_x dot_y dot_theta 1) < 0
          then 0 else 1,
        if rpm_to_pulse (rpm_array Real.sin Real.cos Real.pi dot_x dot_y dot_theta 1) < 0
          then -rpm_to_pulse (rpm_array Real.sin Real.cos Real.pi dot_x dot_y dot_theta 1)
          else rpm_to_pulse (rpm_array Real.sin Real.cos Real.pi dot_x dot_y dot_theta 1)),
       (3,
        if rpm_to_pulse (rpm_array Real.sin Real.cos Real.pi dot_x dot_y dot_theta 2) < 0
          then 0 else 1,
        if rpm_to_pulse (rpm_array Real.sin Real.cos Real.pi dot_x dot_y dot_theta 2) < 0
          then -rpm_to_pulse (rpm_array Real.sin Real.cos Real.pi dot_x dot_y dot_theta 2)
          else rpm_to_pulse (rpm_array Real.sin Real.cos Real.pi dot_x dot_y dot_theta 2))] := by
  have hneg : ∀ q : Int, INT_MIN < q ∧ q ≤ INT_MAX → wrap32 (-q) = -q := by
    intro q hq
    apply wrap32_of_range
    · unfold INT_MIN INT_MAX at *
      omega
    · unfold INT_MIN INT_MAX at *
      omega
  refine ⟨⟨rfl, rfl, rfl⟩, ?_⟩
  simp only [omni_control, if_true, finRange_NUM_MOTORS, List.map_cons, List.map_nil,
    List.cons_append, List.nil_append, motor_commands, direction_of, pulse_of,
    hneg _ h1, hneg _ h2, hneg _ h3]

/-- Witness for C8: when `rpm_to_pulse` maps every setpoint to `-150`, each wheel is
commanded with direction `0` (reverse) and magnitude `150`. -/
theorem omni_control_open_loop_commands_witness :
    motor_commands (omni_control Real.sin Real.cos Real.pi 1 (fun _ => -150) 0 0 0) =
      [(1, 0, 150), (2, 0, 150), (3, 0, 150)] :=
  (omni_control_open_loop_commands (fun _ => -150) 0 0 0
    (by decide) (by decide) (by decide)).2.trans (by simp)

/-- C9 (the code at the failing input): in open-loop mode, when `rpm_to_pulse` returns
`INT_MIN = -2147483648`, the negation wraps and every wheel is commanded with direction
`0` and the negative magnitude `-2147483648`. -/
theorem omni_control_open_loop_negative_magnitude :
    motor_commands
        (omni_control Real.sin Real.cos Real.pi 1 (fun _ => -2147483648) 0 0 0) =
      [(1, 0, -2147483648), (2, 0, -2147483648), (3, 0, -2147483648)] := by
  have hw : wrap32 2147483648 = -2147483648 := by decide
  simp [omni_control, finRange_NUM_MOTORS, motor_commands, direction_of, pulse_of, hw]

/-- C10: over the reals, in open-loop mode, when `rpm_to_pulse 0 = 0` the all-zero
command makes `omni_control` command wheels 1, 2, 3 each with direction `1` and
magnitude `0`; the two divisors of the computation, `WHEEL_RADIUS` and `2 * PI`, are
non-zero. -/
theorem omni_control_zero_command_stops (rpm_to_pulse : ℝ → Int) (h0 : rpm_to_pulse 0 = 0) :
    motor_commands (omni_control Real.sin Real.cos Real.pi 1 rpm_to_pulse 0 0 0) =
      [(1, 1, 0), (2, 1, 0), (3, 1, 0)] ∧
    (WHEEL_RADIUS : ℝ) ≠ 0 ∧ (2 * PI : ℝ) ≠ 0 := by
  have hrpm : ∀ i : Fin NUM_MOTORS, rpm_array Real.sin Real.cos Real.pi 0 0 0 i = 0 := by
    intro i
    fin_cases i <;>
      simp [rpm_array, omega_array, calculate_wheel_speeds, H_inv, rad_s_to_rpm]
  refine ⟨?_, ?_, ?_⟩
  · simp [omni_control, finRange_NUM_MOTORS, motor_commands, direction_of, pulse_of, hrpm, h0]
  · norm_num [WHEEL_RADIUS]
  · norm_num [PI]

/-- Witness for C10: the truncating linear map `rpm ↦ ⌊2 * rpm⌋` sends `0` to `0`. -/
theorem omni_control_zero_command_stops_witness :
    motor_commands
        (omni_control Real.sin Real.cos Real.pi 1 (fun x => Int.floor (2 * x)) 0 0 0) =
      [(1, 1, 0), (2, 1, 0), (3, 1, 0)] :=
  (omni_control_zero_command_stops (fun x => Int.floor (2 * x)) (by simp)).1

/-! ## Frame properties and edge sequences of the decoder and sampler -/

/-- What `calculate_RPM` does to each channel: for a non-zero divisor it returns, the
rpm of a channel is the stored truncating quotient of the stored product, the count is
`0` and the previous pair is unchanged. -/
theorem calculate_RPM_channel (PULSE_PER_ROUND : Int) (s : EncoderState)
    (hP : PULSE_PER_ROUND ≠ 0) :
    ∃ s1, calculate_RPM PULSE_PER_ROUND s = some s1 ∧
      ∀ j : Channel,
        rpm j s1 = wrap32 (Int.tdiv (wrap32 (count j s * 60)) PULSE_PER_ROUND) ∧
        count j s1 = 0 ∧ prev j s1 = prev j s := by
  refine ⟨_, by simp only [calculate_RPM, if_neg hP]; rfl, ?_⟩
  intro j
  cases j <;> simp [rpm, count, prev, clear_encoders]

/-- C12: on the explicit state, the handler of channel `i` leaves the count and the
previous pair of every other channel and all three rpm values unchanged;
`clear_encoders` sets every count to `0` and changes no previous pair and no rpm;
`calculate_RPM` returns for a non-zero divisor, and whenever it returns every count is
`0` and every previous pair is unchanged. -/
theorem handlers_and_sampler_frame :
    (∀ (i j : Channel) (A B : Int) (s : EncoderState),
      (j ≠ i → count j (isr_handler i A B s) = count j s ∧
        prev j (isr_handler i A B s) = prev j s) ∧
      rpm j (isr_handler i A B s) = rpm j s) ∧
    (∀ (j : Channel) (s : EncoderState),
      count j (clear_encoders s) = 0 ∧ prev j (clear_encoders s) = prev j s ∧
      rpm j (clear_encoders s) = rpm j s) ∧
    (∀ (PULSE_PER_ROUND : Int) (s : EncoderState), PULSE_PER_ROUND ≠ 0 →
      ∃ s1, calculate_RPM PULSE_PER_ROUND s = some s1) ∧
    (∀ (PULSE_PER_ROUND : Int) (s s1 : EncoderState),
      calculate_RPM PULSE_PER_ROUND s = some s1 →
      ∀ j : Channel, count j s1 = 0 ∧ prev j s1 = prev j s) := by
  refine ⟨?_, ?_, ?_, ?_⟩
  · intro i j A B s
    cases i <;> cases j <;>
      simp [isr_handler, encoder1_isr_handler, encoder2_isr_handler, encoder3_isr_handler,
        count, prev, rpm] <;>
      split <;> simp
  · intro j s
    cases j <;> simp [clear_encoders, count, prev, rpm]
  · intro P s hP
    obtain ⟨s1, h1, _⟩ := calculate_RPM_channel P s hP
    exact ⟨s1, h1⟩
  · intro P s s1 h j
    by_cases hP : P = 0
    · simp [calculate_RPM, hP] at h
    · obtain ⟨s2, h2, hj⟩ := calculate_RPM_channel P s hP
      rw [h2] at h
      cases h
      exact (hj j).2

/-- C15 (as amended): for every channel and every starting count `c` in the `int`
range with stored previous pair `(0, 0)`: when `c + 4 ≤ INT_MAX` the forward edge
sequence `(0,1), (1,1), (1,0), (0,0)` leaves the count at `c + 4` and the previous pair
at `(0, 0)`; when `INT_MIN ≤ c - 4` the reverse sequence `(1,0), (1,1), (0,1), (0,0)`
leaves the count at `c - 4` and the previous pair at `(0, 0)`; and for every such `c` a
forward cycle followed by a reverse cycle restores the count to `c`. -/
theorem full_cycles_count_four (i : Channel) (s : EncoderState)
    (hprev : prev i s = (0, 0)) (hlo : INT_MIN ≤ count i s) (hhi : count i s ≤ INT_MAX) :
    (count i s + 4 ≤ INT_MAX →
      count i (run_isrs [(i, 0, 1), (i, 1, 1), (i, 1, 0), (i, 0, 0)] s) = count i s + 4 ∧
      prev i (run_isrs [(i, 0, 1), (i, 1, 1), (i, 1, 0), (i, 0, 0)] s) = (0, 0)) ∧
    (INT_MIN ≤ count i s - 4 →
      count i (run_isrs [(i, 1, 0), (i, 1, 1), (i, 0, 1), (i, 0, 0)] s) = count i s - 4 ∧
      prev i (run_isrs [(i, 1, 0), (i, 1, 1), (i, 0, 1), (i, 0, 0)] s) = (0, 0)) ∧
    count i (run_isrs [(i, 1, 0), (i, 1, 1), (i, 0, 1), (i, 0, 0)]
      (run_isrs [(i, 0, 1), (i, 1, 1), (i, 1, 0), (i, 0, 0)] s)) = count i s ∧
    prev i (run_isrs [(i, 1, 0), (i, 1, 1), (i, 0, 1), (i, 0, 0)]
      (run_isrs [(i, 0, 1), (i, 1, 1), (i, 1, 0), (i, 0, 0)] s)) = (0, 0) := by
  unfold INT_MIN at *
  unfold INT_MAX at *
  cases i <;>
    simp only [prev, Prod.mk.injEq] at hprev <;>
    obtain ⟨ha, hb⟩ := hprev <;>
    simp only [count] at hlo hhi ⊢ <;>
    simp [run_isrs, isr_handler, encoder1_isr_handler, encoder2_isr_handler,
      encoder3_isr_handler, prev, ha, hb] <;>
    simp only [wrap32] <;>
    omega

/-- Witness for C15 (as amended): channel 1 from the initial state (count 0, previous
pair `(0, 0)`): forward cycle to 4, reverse cycle to -4, both in turn back to 0. -/
theorem full_cycles_count_four_witness :
    count .ch1 (run_isrs [(.ch1, 0, 1), (.ch1, 1, 1), (.ch1, 1, 0), (.ch1, 0, 0)] initState) =
      0 + 4 ∧
    count .ch1 (run_isrs [(.ch1, 1, 0), (.ch1, 1, 1), (.ch1, 0, 1), (.ch1, 0, 0)] initState) =
      0 - 4 ∧
    count .ch1 (run_isrs [(.ch1, 1, 0), (.ch1, 1, 1), (.ch1, 0, 1), (.ch1, 0, 0)]
      (run_isrs [(.ch1, 0, 1), (.ch1, 1, 1), (.ch1, 1, 0), (.ch1, 0, 0)] initState)) = 0 :=
  ⟨((full_cycles_count_four .ch1 initState (by decide) (by decide) (by decide)).1
      (by decide)).1,
   ((full_cycles_count_four .ch1 initState (by decide) (by decide) (by decide)).2.1
      (by decide)).1,
   (full_cycles_count_four .ch1 initState (by decide) (by decide) (by decide)).2.2.1⟩

/-- C15 (as stated) fails near the ends of the `int` range: from count `2147483647`
the forward cycle ends at `-2147483645`, not at `2147483647 + 4`, and from count
`-2147483648` the reverse cycle ends at `2147483644`, not at `-2147483648 - 4`. -/
theorem full_cycles_at_int_limits :
    prev .ch1 { initState with encoder1_count := 2147483647 } = (0, 0) ∧
    count .ch1 (run_isrs [(.ch1, 0, 1), (.ch1, 1, 1), (.ch1, 1, 0), (.ch1, 0, 0)]
      { initState with encoder1_count := 2147483647 }) = -2147483645 ∧
    count .ch1 (run_isrs [(.ch1, 0, 1), (.ch1, 1, 1), (.ch1, 1, 0), (.ch1, 0, 0)]
      { initState with encoder1_count := 2147483647 }) ≠ 2147483647 + 4 ∧
    count .ch1 (run_isrs [(.ch1, 1, 0), (.ch1, 1, 1), (.ch1, 0, 1), (.ch1, 0, 0)]
      { initState with encoder1_count := -2147483648 }) = 2147483644 ∧
    count .ch1 (run_isrs [(.ch1, 1, 0), (.ch1, 1, 1), (.ch1, 0, 1), (.ch1, 0, 0)]
      { initState with encoder1_count := -2147483648 }) ≠ -2147483648 - 4 := by
  decide

/-- C16: for every channel, every count `c` with `|c * 60| ≤ INT_MAX` and every positive
`PULSE_PER_ROUND`, `calculate_RPM` returns both for count `c` and for count `-c`, the
rpm for `-c` is the negation of the rpm for `c`, and the absolute value of the rpm is
the floor of `|c| * 60 / PULSE_PER_ROUND`. -/
theorem calculate_RPM_sign_symmetric (PULSE_PER_ROUND : Int) (i : Channel)
    (s t : EncoderState) (hP : 0 < PULSE_PER_ROUND) (hneg : count i t = -count i s)
    (hr : |count i s * 60| ≤ INT_MAX) :
    ∃ s1 t1, calculate_RPM PULSE_PER_ROUND s = some s1 ∧
      calculate_RPM PULSE_PER_ROUND t = some t1 ∧
      rpm i t1 = -rpm i s1 ∧
      |rpm i s1| = (|count i s| * 60) / PULSE_PER_ROUND := by
  obtain ⟨s1, hs1, hs⟩ := calculate_RPM_channel PULSE_PER_ROUND s (by omega)
  obtain ⟨t1, ht1, ht⟩ := calculate_RPM_channel PULSE_PER_ROUND t (by omega)
  refine ⟨s1, t1, hs1, ht1, ?_, ?_⟩
  all_goals
    have hb := abs_le.mp hr
    have hlo : INT_MIN < count i s * 60 := by
      unfold INT_MIN
      unfold INT_MAX at hb
      omega
    have hlo2 : INT_MIN < -(count i s * 60) := by
      unfold INT_MIN
      unfold INT_MAX at hb
      omega
    have hhi2 : -(count i s * 60) ≤ INT_MAX := by
      unfold INT_MAX at *
      omega
    have e1 : rpm i s1 = Int.tdiv (count i s * 60) PULSE_PER_ROUND := by
      rw [(hs i).1, wrap32_of_range _ (le_of_lt hlo) hb.2]
      have h := tdiv_range (count i s * 60) PULSE_PER_ROUND hlo hb.2
      exact wrap32_of_range _ h.1 h.2
    have e2 : rpm i t1 = Int.tdiv (-(count i s * 60)) PULSE_PER_ROUND := by
      rw [(ht i).1, hneg, neg_mul, wrap32_of_range _ (le_of_lt hlo2) hhi2]
      have h := tdiv_range (-(count i s * 60)) PULSE_PER_ROUND hlo2 hhi2
      exact wrap32_of_range _ h.1 h.2
  · rw [e1, e2, Int.neg_tdiv]
  · rw [e1]
    have hn : ((Int.tdiv (count i s * 60) PULSE_PER_ROUND).natAbs : Int) =
        ((count i s * 60).natAbs / PULSE_PER_ROUND.natAbs : Nat) := by
      rw [Int.natAbs_tdiv]
      rfl
    rw [Int.abs_eq_natAbs, hn, Int.abs_eq_natAbs, Int.natAbs_mul]
    push_cast
    rw [abs_of_pos hP]

/-- Witness for C16: counts 7 and -7 with `PULSE_PER_ROUND = 100` give rpm 4 and -4
(the quotient -4.2 is truncated to -4, not floored to -5). -/
theorem calculate_RPM_sign_symmetric_witness :
    ∃ s1 t1, calculate_RPM 100 { initState with encoder2_count := 7 } = some s1 ∧
      calculate_RPM 100 { initState with encoder2_count := -7 } = some t1 ∧
      rpm .ch2 t1 = -rpm .ch2 s1 ∧
      |rpm .ch2 s1| = (|count .ch2 { initState with encoder2_count := 7 }| * 60) / 100 :=
  calculate_RPM_sign_symmetric 100 .ch2 { initState with encoder2_count := 7 }
    { initState with encoder2_count := -7 } (by decide) (by decide) (by decide)

/-! ## Sum of the wheel speeds and setpoints of `omni_control` -/

/-- C17: over the reals, for every parameter record with non-zero wheel radius the
three wheel speeds sum to `3 * R * dot_theta / r`; in particular they sum to zero when
`dot_theta = 0`, whatever the heading offset. -/
theorem calculate_wheel_speeds_sum (p : RobotParams ℝ) (hr : p.wheel_radius ≠ 0) :
    (calculate_wheel_speeds Real.sin Real.cos Real.pi p).1 +
        (calculate_wheel_speeds Real.sin Real.cos Real.pi p).2.1 +
        (calculate_wheel_speeds Real.sin Real.cos Real.pi p).2.2 =
      3 * p.robot_radius * p.dot_theta / p.wheel_radius ∧
    (p.dot_theta = 0 →
      (calculate_wheel_speeds Real.sin Real.cos Real.pi p).1 +
        (calculate_wheel_speeds Real.sin Real.cos Real.pi p).2.1 +
        (calculate_wheel_speeds Real.sin Real.cos Real.pi p).2.2 = 0) := by
  have hsum : (calculate_wheel_speeds Real.sin Real.cos Real.pi p).1 +
        (calculate_wheel_speeds Real.sin Real.cos Real.pi p).2.1 +
        (calculate_wheel_speeds Real.sin Real.cos Real.pi p).2.2 =
      3 * p.robot_radius * p.dot_theta / p.wheel_radius := by
    simp only [calculate_wheel_speeds, H_inv, Real.sin_sub, Real.sin_add, Real.cos_sub,
      Real.cos_add, Real.cos_pi_div_three]
    field_simp
    ring
  refine ⟨hsum, ?_⟩
  intro h0
  rw [hsum, h0]
  simp

/-- Witness for C17: heading offset 1 rad, a unit translation along both axes and no
rotation, with wheel radius 2 and robot radius 5: the wheel speeds sum to zero. -/
theorem calculate_wheel_speeds_sum_witness :
    (calculate_wheel_speeds Real.sin Real.cos Real.pi
        { dot_x := 1, dot_y := 1, dot_theta := 0, theta := 1,
          wheel_radius := 2, robot_radius := 5 }).1 +
      (calculate_wheel_speeds Real.sin Real.cos Real.pi
        { dot_x := 1, dot_y := 1, dot_theta := 0, theta := 1,
          wheel_radius := 2, robot_radius := 5 }).2.1 +
      (calculate_wheel_speeds Real.sin Real.cos Real.pi
        { dot_x := 1, dot_y := 1, dot_theta := 0, theta := 1,
          wheel_radius := 2, robot_radius := 5 }).2.2 = 0 :=
  (calculate_wheel_speeds_sum
    { dot_x := 1, dot_y := 1, dot_theta := 0, theta := 1,
      wheel_radius := 2, robot_radius := 5 } (by norm_num)).2 rfl

/-- The array `rpm` of `omni_control` over the reals, in closed form. -/
theorem rpm_array_closed_form (dot_x dot_y dot_theta : ℝ) :
    rpm_array Real.sin Real.cos Real.pi dot_x dot_y dot_theta 0 =
      ((dot_y + 0.1528 * dot_theta) / 0.03) * 60 / (2 * PI) ∧
    rpm_array Real.sin Real.cos Real.pi dot_x dot_y dot_theta 1 =
      ((-(Real.sqrt 3 / 2) * dot_x - dot_y / 2 + 0.1528 * dot_theta) / 0.03) * 60 / (2 * PI) ∧
    rpm_array Real.sin Real.cos Real.pi dot_x dot_y dot_theta 2 =
      (((Real.sqrt 3 / 2) * dot_x - dot_y / 2 + 0.1528 * dot_theta) / 0.03) * 60 / (2 * PI) := by
  refine ⟨?_, ?_, ?_⟩
  · simp [rpm_array, omega_array, calculate_wheel_speeds, H_inv, rad_s_to_rpm, WHEEL_RADIUS,
      ROBOT_RADIUS]
  · simp only [rpm_array, omega_array, calculate_wheel_speeds, H_inv, rad_s_to_rpm,
      WHEEL_RADIUS, ROBOT_RADIUS, sub_zero, Real.sin_pi_div_three, Real.cos_pi_div_three]
    ring
  · simp only [rpm_array, omega_array, calculate_wheel_speeds, H_inv, rad_s_to_rpm,
      WHEEL_RADIUS, ROBOT_RADIUS, add_zero, Real.sin_pi_div_three, Real.cos_pi_div_three]
    ring

/-- The `LPF_Clear` calls of `omni_control` hand over the array `rpm`, in both build
modes. -/
theorem lpf_values_omni_control {α : Type} [Field α] (sin cos : α → α) (M_PI : α)
    (NON_PID : Int) (rpm_to_pulse : α → Int) (dot_x dot_y dot_theta : α) :
    lpf_values (omni_control sin cos M_PI NON_PID rpm_to_pulse dot_x dot_y dot_theta) =
      [(0, rpm_array sin cos M_PI dot_x dot_y dot_theta 0),
       (1, rpm_array sin cos M_PI dot_x dot_y dot_theta 1),
       (2, rpm_array sin cos M_PI dot_x dot_y dot_theta 2)] := by
  by_cases h : NON_PID = 1
  · simp [omni_control, h, finRange_NUM_MOTORS, lpf_values]
  · simp [omni_control, h, finRange_NUM_MOTORS, lpf_values]

/-- C18: over the reals, in either build mode and for every command, the values that
`omni_control` hands to `LPF_Clear` (the rpm setpoints, computed with `theta = 0`,
wheel radius `0.03`, robot radius `0.1528` and `rad_s_to_rpm w = w * 60 / (2 * PI)`)
are `((dot_y + 0.1528 * dot_theta) / 0.03) * 60 / (2 * PI)` for wheel 1,
`((-(sqrt 3 / 2) * dot_x - dot_y / 2 + 0.1528 * dot_theta) / 0.03) * 60 / (2 * PI)` for
wheel 2 and `(((sqrt 3 / 2) * dot_x - dot_y / 2 + 0.1528 * dot_theta) / 0.03) * 60 /
(2 * PI)` for wheel 3; the setpoint of wheel 1 is the same for every `dot_x`. -/
theorem omni_control_setpoints_closed_form (NON_PID : Int) (rpm_to_pulse : ℝ → Int)
    (dot_x dot_y dot_theta : ℝ) :
    lpf_values
        (omni_control Real.sin Real.cos Real.pi NON_PID rpm_to_pulse dot_x dot_y dot_theta) =
      [(0, ((dot_y + 0.1528 * dot_theta) / 0.03) * 60 / (2 * PI)),
       (1, ((-(Real.sqrt 3 / 2) * dot_x - dot_y / 2 + 0.1528 * dot_theta) / 0.03) * 60 /
          (2 * PI)),
       (2, (((Real.sqrt 3 / 2) * dot_x - dot_y / 2 + 0.1528 * dot_theta) / 0.03) * 60 /
          (2 * PI))] ∧
    (∀ x : ℝ, rpm_array Real.sin Real.cos Real.pi x dot_y dot_theta 0 =
      rpm_array Real.sin Real.cos Real.pi dot_x dot_y dot_theta 0) ∧
    (∀ w : ℝ, rad_s_to_rpm w = w * 60 / (2 * PI)) := by
  obtain ⟨h0, h1, h2⟩ := rpm_array_closed_form dot_x dot_y dot_theta
  refine ⟨?_, ?_, ?_⟩
  · rw [lpf_values_omni_control, h0, h1, h2]
  · intro x
    rw [h0, (rpm_array_closed_form x dot_y dot_theta).1]
  · intro w
    rfl

/-! ## Rim speed to rpm -/

/-- C19: over the reals with the program's `PI`, for every rim speed `v` for which the
truncation of `60 * v / (3 * PI / 50)` is in the `int` range, `m_s_to_rpm v` returns
that truncation; `3 * PI / 50 = 2 * PI * WHEEL_RADIUS`; and for every angular velocity
`w` for which the truncation of `rad_s_to_rpm w` is in the `int` range,
`m_s_to_rpm (w * WHEEL_RADIUS)` returns that truncation. -/
theorem m_s_to_rpm_truncates (v w : ℝ)
    (hv : INT_MIN ≤ trunc_toward_zero (60 * v / (3 * PI / 50)) ∧
      trunc_toward_zero (60 * v / (3 * PI / 50)) ≤ INT_MAX)
    (hw : INT_MIN ≤ trunc_toward_zero (rad_s_to_rpm w) ∧
      trunc_toward_zero (rad_s_to_rpm w) ≤ INT_MAX) :
    m_s_to_rpm v = some (trunc_toward_zero (60 * v / (3 * PI / 50))) ∧
    (3 * PI / 50 : ℝ) = 2 * PI * WHEEL_RADIUS ∧
    m_s_to_rpm (w * WHEEL_RADIUS) = some (trunc_toward_zero (rad_s_to_rpm w)) := by
  have hpi : (PI : ℝ) ≠ 0 := by
    unfold PI
    norm_num
  have e1 : (v * 1000) / PI = 60 * v / (3 * PI / 50) := by
    field_simp
    ring
  have e2 : (w * WHEEL_RADIUS * 1000) / PI = rad_s_to_rpm w := by
    unfold rad_s_to_rpm WHEEL_RADIUS
    field_simp
    ring
  refine ⟨?_, ?_, ?_⟩
  · unfold m_s_to_rpm float_to_int
    rw [e1, if_pos hv]
  · unfold WHEEL_RADIUS
    ring
  · unfold m_s_to_rpm float_to_int
    rw [e2, if_pos hw]

/-- The truncation at rim speed `-1` m/s: the quotient is about `-318.3`. -/
theorem trunc_at_minus_one :
    trunc_toward_zero (60 * (-1 : ℝ) / (3 * PI / 50)) = -318 := by
  have hneg : ¬ (0 : ℝ) ≤ 60 * (-1 : ℝ) / (3 * PI / 50) := by
    unfold PI
    norm_num
  unfold trunc_toward_zero
  rw [if_neg hneg, Int.ceil_eq_iff]
  unfold PI
  constructor <;> norm_num

/-- Witness for C19: rim speed `-1` m/s gives `-318` rpm (the quotient `-318.3...` is
truncated toward zero), and angular velocity 0 gives 0 rpm. -/
theorem m_s_to_rpm_truncates_witness :
    m_s_to_rpm (-1 : ℝ) = some (-318) ∧
    m_s_to_rpm ((0 : ℝ) * WHEEL_RADIUS) = some (trunc_toward_zero (rad_s_to_rpm (0 : ℝ))) :=
  ⟨(m_s_to_rpm_truncates (-1) 0
      (by rw [trunc_at_minus_one]; decide)
      (by simp [trunc_toward_zero, rad_s_to_rpm, INT_MIN, INT_MAX])).1.trans
      (by rw [trunc_at_minus_one]),
   (m_s_to_rpm_truncates (-1) 0
      (by rw [trunc_at_minus_one]; decide)
      (by simp [trunc_toward_zero, rad_s_to_rpm, INT_MIN, INT_MAX])).2.2⟩

/-! ## Status line -/

/-- Every stored `int` is in the `int` range. -/
theorem wrap32_range (x : Int) : INT_MIN ≤ wrap32 x ∧ wrap32 x ≤ INT_MAX := by
  unfold wrap32 INT_MIN INT_MAX
  omega

/-- A natural number below `10 ^ 10` has at most ten decimal digits. -/
theorem dec_nat_length (n : Nat) (h : n < 10 ^ 10) : (dec_nat n).length ≤ 10 := by
  unfold dec_nat
  split
  · decide
  · rename_i hn
    rw [List.length_map, List.length_reverse]
    have h1 := Nat.base_pow_length_digits_le 10 n (by norm_num) hn
    by_contra hlen
    have h2 : 10 ^ 11 ≤ 10 ^ (Nat.digits 10 n).length :=
      Nat.pow_le_pow_right (by norm_num) (by omega)
    omega

/-- The `%d` text of a value in the `int` range has at most eleven characters. -/
theorem dec_length (z : Int) (hlo : INT_MIN ≤ z) (hhi : z ≤ INT_MAX) :
    (dec z).length ≤ 11 := by
  have hn : z.natAbs < 10 ^ 10 := by
    unfold INT_MIN at hlo
    unfold INT_MAX at hhi
    omega
  have h := dec_nat_length z.natAbs hn
  unfold dec
  split
  · rw [List.length_append]
    have : ("-".toList).length = 1 := rfl
    omega
  · omega

/-- C13: for every state and every non-zero `PULSE_PER_ROUND`, one iteration of
`task_send_encoder` returns; with `r1, r2, r3` the rpm values that `calculate_RPM`
produced in it, the message is exactly `"1:" ++ dec r1 ++ ";2:" ++ dec r2 ++ ";3:" ++
dec r3`, and its length is at most 41, below the 63 characters the buffer can hold. -/
theorem status_line_exact (PULSE_PER_ROUND : Int) (s : EncoderState)
    (hP : PULSE_PER_ROUND ≠ 0) :
    ∃ s1, calculate_RPM PULSE_PER_ROUND s = some s1 ∧
      task_send_encoder_tick PULSE_PER_ROUND s =
        some (s1, "1:".toList ++ dec s1.encoder1_rpm ++ ";2:".toList ++ dec s1.encoder2_rpm ++
          ";3:".toList ++ dec s1.encoder3_rpm) ∧
      ("1:".toList ++ dec s1.encoder1_rpm ++ ";2:".toList ++ dec s1.encoder2_rpm ++
          ";3:".toList ++ dec s1.encoder3_rpm).length ≤ 41 := by
  obtain ⟨s1, h1, hch⟩ := calculate_RPM_channel PULSE_PER_ROUND s hP
  have r1 := hch .ch1
  have r2 := hch .ch2
  have r3 := hch .ch3
  simp only [rpm] at r1 r2 r3
  have b1 := dec_length s1.encoder1_rpm (r1.1 ▸ (wrap32_range _).1) (r1.1 ▸ (wrap32_range _).2)
  have b2 := dec_length s1.encoder2_rpm (r2.1 ▸ (wrap32_range _).1) (r2.1 ▸ (wrap32_range _).2)
  have b3 := dec_length s1.encoder3_rpm (r3.1 ▸ (wrap32_range _).1) (r3.1 ▸ (wrap32_range _).2)
  have hlen : ("1:".toList ++ dec s1.encoder1_rpm ++ ";2:".toList ++ dec s1.encoder2_rpm ++
      ";3:".toList ++ dec s1.encoder3_rpm).length ≤ 41 := by
    simp only [List.length_append]
    have e1 : ("1:".toList).length = 2 := rfl
    have e2 : (";2:".toList).length = 3 := rfl
    have e3 : (";3:".toList).length = 3 := rfl
    omega
  refine ⟨s1, h1, ?_, hlen⟩
  unfold task_send_encoder_tick
  rw [h1]
  simp only [snprintf]
  rw [List.take_of_length_le (by omega)]

/-- Witness for C13: counts 720, -7 and 0 with `PULSE_PER_ROUND = 12` give the message
`1:3600;2:-35;3:0`. -/
theorem status_line_exact_witness :
    ∃ s1, calculate_RPM 12 { initState with encoder1_count := 720, encoder2_count := -7 } =
        some s1 ∧
      task_send_encoder_tick 12 { initState with encoder1_count := 720, encoder2_count := -7 } =
        some (s1, "1:3600;2:-35;3:0".toList) := by
  obtain ⟨s1, h1, h2, _⟩ :=
    status_line_exact 12 { initState with encoder1_count := 720, encoder2_count := -7 }
      (by decide)
  refine ⟨s1, h1, ?_⟩
  rw [h2]
  have hs : s1 = { initState with encoder1_rpm := 3600, encoder2_rpm := -35 } := by
    have h3 : calculate_RPM 12 { initState with encoder1_count := 720, encoder2_count := -7 } =
        some { initState with encoder1_rpm := 3600, encoder2_rpm := -35 } := by decide
    rw [h3] at h1
    exact (Option.some.inj h1).symm
  subst hs
  have d1 : dec 3600 = "3600".toList := by
    simp only [dec, dec_nat]
    norm_num
    decide
  have d2 : dec (-35) = "-35".toList := by
    simp only [dec, dec_nat]
    norm_num
    decide
  have d3 : dec 0 = "0".toList := by
    simp [dec, dec_nat]
  simp only [initState, d1, d2, d3]
  decide

/-! ## Sampling under interrupts -/

/-- Without interrupts the statement-by-statement run is `calculate_RPM`. -/
theorem calculate_RPM_interleaved_no_interrupts (PULSE_PER_ROUND : Int) (s : EncoderState) :
    calculate_RPM_interleaved PULSE_PER_ROUND no_interrupts s =
      (calculate_RPM PULSE_PER_ROUND s).map
        (fun s1 => (s1, (s.encoder1_count, s.encoder2_count, s.encoder3_count))) := by
  by_cases hP : PULSE_PER_ROUND = 0
  · simp [calculate_RPM_interleaved, calculate_RPM, hP]
  · simp [calculate_RPM_interleaved, calculate_RPM, hP, no_interrupts, run_isrs, read_step,
      clear_step, clear_encoders]

/-- A handler acts on the view of its own channel by `chan_step` and leaves the views
of the other channels alone. -/
theorem view_isr_handler (i j : Channel) (A B : Int) (s : EncoderState) :
    view i (isr_handler j A B s) = if j = i then chan_step (view i s) A B else view i s := by
  cases i <;> cases j <;>
    simp [view, isr_handler, encoder1_isr_handler, encoder2_isr_handler,
      encoder3_isr_handler, count, prev, chan_step] <;>
    split <;> simp

/-- The view of a channel after a sequence of interrupts. -/
theorem view_run_isrs (i : Channel) (evs : List IsrEvent) (s : EncoderState) :
    view i (run_isrs evs s) = chan_run i evs (view i s) := by
  induction evs generalizing s with
  | nil => rfl
  | cons e es ih =>
    have h1 : run_isrs (e :: es) s = run_isrs es (isr_handler e.1 e.2.1 e.2.2 s) := rfl
    have h2 : chan_run i (e :: es) (view i s) =
        chan_run i es (if e.1 = i then chan_step (view i s) e.2.1 e.2.2 else view i s) := rfl
    rw [h1, h2, ih, view_isr_handler]

/-- An rpm assignment changes no view. -/
theorem view_read_step (i j : Channel) (P : Int) (s : EncoderState) :
    view i (read_step P j s) = view i s := by
  cases i <;> cases j <;> rfl

/-- Zeroing the count of channel `j` resets the count in the view of `j` and changes no
other view. -/
theorem view_clear_step (i j : Channel) (s : EncoderState) :
    view i (clear_step j s) = if j = i then (0, (view i s).2) else view i s := by
  cases i <;> cases j <;> simp [view, clear_step, count, prev]

/-- The view after two sequences of interrupts in a row. -/
theorem chan_run_append (i : Channel) (es fs : List IsrEvent) (v : Int × (Int × Int)) :
    chan_run i (es ++ fs) v = chan_run i fs (chan_run i es v) := by
  simp [chan_run, List.foldl_append]

/-- Interrupts of other channels leave a view unchanged. -/
theorem chan_run_other (i : Channel) (es : List IsrEvent) (v : Int × (Int × Int))
    (h : ∀ e ∈ es, e.1 ≠ i) : chan_run i es v = v := by
  induction es generalizing v with
  | nil => rfl
  | cons e es ih =>
    have h2 : chan_run i (e :: es) v =
        chan_run i es (if e.1 = i then chan_step v e.2.1 e.2.2 else v) := rfl
    rw [h2, if_neg (h e (List.mem_cons_self _ _))]
    exact ih v (fun x hx => h x (List.mem_cons_of_mem _ hx))

/-- Two runs over the same interrupts from counts `a` and `b` with `a = wrap32 (u + b)`
and the same previous pair keep that relation and end with the same previous pair. -/
theorem chan_run_shift (i : Channel) (u : Int) (es : List IsrEvent) (a b : Int)
    (p : Int × Int) (hab : a = wrap32 (u + b)) :
    (chan_run i es (a, p)).1 = wrap32 (u + (chan_run i es (b, p)).1) ∧
    (chan_run i es (a, p)).2 = (chan_run i es (b, p)).2 := by
  induction es generalizing a b p with
  | nil => exact ⟨hab, rfl⟩
  | cons e es ih =>
    have h2 : ∀ v, chan_run i (e :: es) v =
        chan_run i es (if e.1 = i then chan_step v e.2.1 e.2.2 else v) := fun _ => rfl
    rw [h2, h2]
    by_cases he : e.1 = i
    · rw [if_pos he, if_pos he]
      simp only [chan_step]
      split
      · apply ih
        subst hab
        unfold wrap32
        omega
      · apply ih
        subst hab
        unfold wrap32
        omega
    · rw [if_neg he, if_neg he]
      exact ih a b p hab

/-- The count of a view stays in the `int` range. -/
theorem chan_run_range (i : Channel) (es : List IsrEvent) (v : Int × (Int × Int))
    (h : INT_MIN ≤ v.1 ∧ v.1 ≤ INT_MAX) :
    INT_MIN ≤ (chan_run i es v).1 ∧ (chan_run i es v).1 ≤ INT_MAX := by
  induction es generalizing v with
  | nil => exact h
  | cons e es ih =>
    have h2 : chan_run i (e :: es) v =
        chan_run i es (if e.1 = i then chan_step v e.2.1 e.2.2 else v) := rfl
    rw [h2]
    apply ih
    split
    · simp only [chan_step]
      split <;> exact wrap32_range _
    · exact h

/-- Conservation on a view: from a count `u` in the `int` range, the count after a
sequence of interrupts is the stored sum of `u` and the count the same interrupts
produce from `0`. -/
theorem chan_run_from_zero (i : Channel) (es : List IsrEvent) (u : Int) (p : Int × Int)
    (h : INT_MIN ≤ u ∧ u ≤ INT_MAX) :
    wrap32 (u + (chan_run i es (0, p)).1) = (chan_run i es (u, p)).1 := by
  have hab : u = wrap32 (u + 0) := by
    rw [add_zero, wrap32_of_range u h.1 h.2]
  exact ((chan_run_shift i u es u 0 p hab).1).symm

/-- With a non-zero divisor the interleaved run returns. -/
theorem calculate_RPM_interleaved_returns (P : Int) (q : Interleaving) (s : EncoderState)
    (hP : P ≠ 0) :
    calculate_RPM_interleaved P q s =
      some
        (run_isrs q.q6 (clear_step .ch3 (run_isrs q.q5 (clear_step .ch2 (run_isrs q.q4
          (clear_step .ch1 (run_isrs q.q3 (read_step P .ch3 (run_isrs q.q2
            (read_step P .ch2 (run_isrs q.q1 (read_step P .ch1 (run_isrs q.q0 s)))))))))))),
         ((run_isrs q.q0 s).encoder1_count,
          (run_isrs q.q1 (read_step P .ch1 (run_isrs q.q0 s))).encoder2_count,
          (run_isrs q.q2 (read_step P .ch2
            (run_isrs q.q1 (read_step P .ch1 (run_isrs q.q0 s))))).encoder3_count)) := by
  simp only [calculate_RPM_interleaved, if_neg hP]

/-- C11 (as amended): handlers run to completion between the statements of
`calculate_RPM`. For every non-zero `PULSE_PER_ROUND`, every channel `i` whose count
starts in the `int` range and every interleaving in which no handler of channel `i`
runs after the count of `i` is read and before it is zeroed, `calculate_RPM` returns
and no edge of channel `i` is lost: the count value read for the rpm plus the count
left after the return is, as a stored `int`, the count that the handlers alone would
have produced. -/
theorem no_edge_lost_outside_window (PULSE_PER_ROUND : Int) (q : Interleaving)
    (s : EncoderState) (i : Channel) (hP : PULSE_PER_ROUND ≠ 0)
    (hrange : INT_MIN ≤ count i s ∧ count i s ≤ INT_MAX)
    (hwin : ∀ e ∈ window i q, e.1 ≠ i) :
    ∃ s1 reads, calculate_RPM_interleaved PULSE_PER_ROUND q s = some (s1, reads) ∧
      wrap32 (read_of i reads + count i s1) = count i (run_isrs (all_events q) s) := by
  refine ⟨_, _, calculate_RPM_interleaved_returns PULSE_PER_ROUND q s hP, ?_⟩
  cases i
  · simp only [window, List.mem_append] at hwin
    have h1 : ∀ e ∈ q.q1, e.1 ≠ Channel.ch1 := fun e he => hwin e (Or.inl he)
    have h2 : ∀ e ∈ q.q2, e.1 ≠ Channel.ch1 := fun e he => hwin e (Or.inr (Or.inl he))
    have h3 : ∀ e ∈ q.q3, e.1 ≠ Channel.ch1 := fun e he => hwin e (Or.inr (Or.inr he))
    have hu := chan_run_range .ch1 q.q0 (view .ch1 s) hrange
    have key := chan_run_from_zero .ch1 (q.q4 ++ (q.q5 ++ q.q6)) _
      (chan_run .ch1 q.q0 (view .ch1 s)).2 hu
    show wrap32 ((view .ch1 (run_isrs q.q0 s)).1 + (view .ch1 _).1) = (view .ch1 _).1
    simp only [view_run_isrs, view_read_step, view_clear_step, all_events, chan_run_append,
      chan_run_other _ _ _ h1, chan_run_other _ _ _ h2, chan_run_other _ _ _ h3,
      if_true, if_false, reduceCtorEq, Prod.mk.eta] at key ⊢
    exact key
  · simp only [window, List.mem_append] at hwin
    have h2 : ∀ e ∈ q.q2, e.1 ≠ Channel.ch2 := fun e he => hwin e (Or.inl he)
    have h3 : ∀ e ∈ q.q3, e.1 ≠ Channel.ch2 := fun e he => hwin e (Or.inr (Or.inl he))
    have h4 : ∀ e ∈ q.q4, e.1 ≠ Channel.ch2 := fun e he => hwin e (Or.inr (Or.inr he))
    have hu := chan_run_range .ch2 (q.q0 ++ q.q1) (view .ch2 s) hrange
    have key := chan_run_from_zero .ch2 (q.q5 ++ q.q6) _
      (chan_run .ch2 (q.q0 ++ q.q1) (view .ch2 s)).2 hu
    show wrap32 ((view .ch2 (run_isrs q.q1 _)).1 + (view .ch2 _).1) = (view .ch2 _).1
    simp only [view_run_isrs, view_read_step, view_clear_step, all_events, chan_run_append,
      chan_run_other _ _ _ h2, chan_run_other _ _ _ h3, chan_run_other _ _ _ h4,
      if_true, if_false, reduceCtorEq, Prod.mk.eta] at key ⊢
    exact key
  · simp only [window, List.mem_append] at hwin
    have h3 : ∀ e ∈ q.q3, e.1 ≠ Channel.ch3 := fun e he => hwin e (Or.inl he)
    have h4 : ∀ e ∈ q.q4, e.1 ≠ Channel.ch3 := fun e he => hwin e (Or.inr (Or.inl he))
    have h5 : ∀ e ∈ q.q5, e.1 ≠ Channel.ch3 := fun e he => hwin e (Or.inr (Or.inr he))
    have hu := chan_run_range .ch3 (q.q0 ++ (q.q1 ++ q.q2)) (view .ch3 s) hrange
    have key := chan_run_from_zero .ch3 q.q6 _
      (chan_run .ch3 (q.q0 ++ (q.q1 ++ q.q2)) (view .ch3 s)).2 hu
    show wrap32 ((view .ch3 (run_isrs q.q2 _)).1 + (view .ch3 _).1) = (view .ch3 _).1
    simp only [view_run_isrs, view_read_step, view_clear_step, all_events, chan_run_append,
      chan_run_other _ _ _ h3, chan_run_other _ _ _ h4, chan_run_other _ _ _ h5,
      if_true, if_false, reduceCtorEq, Prod.mk.eta] at key ⊢
    exact key

/-- Witness for C11 (as amended): from the initial state, a forward edge of channel 1
before the sampler starts, a forward edge of channel 2 while the count of channel 1 is
between its read and its zeroing, and a further forward edge of channel 1 after the
last statement: for channel 1 the count read is 1 and the count left is 1, and the
handlers alone would have counted 2. -/
theorem no_edge_lost_outside_window_witness :
    ∃ s1 reads,
      calculate_RPM_interleaved 12
          { q0 := [(.ch1, 0, 1)], q1 := [(.ch2, 0, 1)], q2 := [], q3 := [], q4 := [],
            q5 := [], q6 := [(.ch1, 1, 1)] } initState = some (s1, reads) ∧
      wrap32 (read_of .ch1 reads + count .ch1 s1) =
        count .ch1 (run_isrs (all_events
          { q0 := [(.ch1, 0, 1)], q1 := [(.ch2, 0, 1)], q2 := [], q3 := [], q4 := [],
            q5 := [], q6 := [(.ch1, 1, 1)] }) initState) :=
  no_edge_lost_outside_window 12
    { q0 := [(.ch1, 0, 1)], q1 := [(.ch2, 0, 1)], q2 := [], q3 := [], q4 := [],
      q5 := [], q6 := [(.ch1, 1, 1)] } initState .ch1 (by decide) (by decide) (by decide)

/-- C11 (as stated) fails: from the initial state with `PULSE_PER_ROUND = 12`, one
forward edge of channel 1 delivered after `encoder1_rpm` is assigned and before
`clear_encoders` runs is lost. `calculate_RPM` returns with `encoder1_rpm = 0`
(computed from the count 0 that was read) and `encoder1_count = 0`, although the
handler had counted the edge (the handlers alone leave the count at 1). -/
theorem edge_lost_between_read_and_clear :
    calculate_RPM_interleaved 12
        { q0 := [], q1 := [(.ch1, 0, 1)], q2 := [], q3 := [], q4 := [], q5 := [], q6 := [] }
        initState =
      some ({ initState with encoder1_a_prev := 0, encoder1_b_prev := 1 }, (0, 0, 0)) ∧
    count .ch1 (run_isrs (all_events
        { q0 := [], q1 := [(.ch1, 0, 1)], q2 := [], q3 := [], q4 := [], q5 := [], q6 := [] })
        initState) = 1 ∧
    wrap32 (read_of .ch1 (0, 0, 0) +
        count .ch1 { initState with encoder1_a_prev := 0, encoder1_b_prev := 1 }) ≠
      count .ch1 (run_isrs (all_events
        { q0 := [], q1 := [(.ch1, 0, 1)], q2 := [], q3 := [], q4 := [], q5 := [], q6 := [] })
        initState) := by
  decide

/-! ## Setpoints of `omni_control` on explicit memory -/

/-- What `calculate_wheel_speeds` leaves behind its output pointers when they are
pairwise distinct and none of them points into `*params`: the three results of the
computation on the values that `*params` held at entry. -/
theorem calculate_wheel_speeds_mem_outputs {L α : Type} [DecidableEq L] [Field α]
    (sin cos : α → α) (M_PI : α) (params : RobotParams L) (o1 o2 o3 : L) (m : L → α)
    (h12 : o1 ≠ o2) (h13 : o1 ≠ o3) (h23 : o2 ≠ o3)
    (hp : ∀ o, o = o1 ∨ o = o2 ∨ o = o3 →
      params.dot_x ≠ o ∧ params.dot_y ≠ o ∧ params.dot_theta ≠ o ∧
      params.wheel_radius ≠ o) :
    calculate_wheel_speeds_mem sin cos M_PI params o1 o2 o3 m o1 =
      (calculate_wheel_speeds sin cos M_PI (load_params m params)).1 ∧
    calculate_wheel_speeds_mem sin cos M_PI params o1 o2 o3 m o2 =
      (calculate_wheel_speeds sin cos M_PI (load_params m params)).2.1 ∧
    calculate_wheel_speeds_mem sin cos M_PI params o1 o2 o3 m o3 =
      (calculate_wheel_speeds sin cos M_PI (load_params m params)).2.2 := by
  obtain ⟨a1, a2, a3, a4⟩ := hp o1 (Or.inl rfl)
  obtain ⟨b1, b2, b3, b4⟩ := hp o2 (Or.inr (Or.inl rfl))
  simp only [calculate_wheel_speeds_mem, calculate_wheel_speeds, load_params]
  refine ⟨?_, ?_, ?_⟩
  · rw [Function.update_noteq h13, Function.update_noteq h12, Function.update_same]
  · rw [Function.update_noteq h23, Function.update_same, Function.update_noteq a1,
      Function.update_noteq a2, Function.update_noteq a3, Function.update_noteq a4]
  · rw [Function.update_same, Function.update_noteq b1, Function.update_noteq b2,
      Function.update_noteq b3, Function.update_noteq b4, Function.update_noteq a1,
      Function.update_noteq a2, Function.update_noteq a3, Function.update_noteq a4]

/-- After the initialisation of `robot` and the call of `calculate_wheel_speeds`, the
array `omega` holds the wheel speeds of the command, whatever memory held before. -/
theorem omega_after_solver {α : Type} [Field α] (sin cos : α → α) (M_PI : α)
    (dot_x dot_y dot_theta : α) (m : Loc → α) (i : Fin NUM_MOTORS) :
    calculate_wheel_speeds_mem sin cos M_PI robot_ptr (Loc.omega 0) (Loc.omega 1)
        (Loc.omega 2) (init_robot dot_x dot_y dot_theta m) (Loc.omega i) =
      omega_array sin cos M_PI dot_x dot_y dot_theta i := by
  have h := calculate_wheel_speeds_mem_outputs sin cos M_PI robot_ptr (Loc.omega 0)
    (Loc.omega 1) (Loc.omega 2) (init_robot dot_x dot_y dot_theta m)
    (by decide) (by decide) (by decide)
    (by
      intro o ho
      rcases ho with rfl | rfl | rfl <;> simp [robot_ptr])
  have hl : load_params (init_robot dot_x dot_y dot_theta m) robot_ptr =
      { dot_x := dot_x, dot_y := dot_y, dot_theta := dot_theta, theta := 0,
        wheel_radius := WHEEL_RADIUS, robot_radius := ROBOT_RADIUS } := by
    simp [load_params, init_robot, robot_ptr, Function.update]
  rw [hl] at h
  fin_cases i
  · exact h.1
  · exact h.2.1
  · exact h.2.2

/-- The frame of `calculate_wheel_speeds`: memory is unchanged at every location other
than the three output pointers. -/
theorem calculate_wheel_speeds_mem_frame {L α : Type} [DecidableEq L] [Field α]
    (sin cos : α → α) (M_PI : α) (params : RobotParams L) (o1 o2 o3 l : L) (m : L → α)
    (h1 : l ≠ o1) (h2 : l ≠ o2) (h3 : l ≠ o3) :
    calculate_wheel_speeds_mem sin cos M_PI params o1 o2 o3 m l = m l := by
  simp only [calculate_wheel_speeds_mem]
  rw [Function.update_noteq h3, Function.update_noteq h2, Function.update_noteq h1]

/-- The open-loop loop keeps `omega` and adds, per index, the calls of `LPF_Clear` and
`rpm_to_pulse` with the rpm of that wheel. -/
theorem open_loop_fold {α : Type} [Field α] (E : Externals α) (hE : respects_frame E)
    (w : Fin NUM_MOTORS → α) (idxs : List (Fin NUM_MOTORS)) (a : LoopState α)
    (ha : ∀ i, a.st.mem (Loc.omega i) = w i) :
    (∀ i, (idxs.foldl (open_loop_body E) a).st.mem (Loc.omega i) = w i) ∧
    setpoint_calls (idxs.foldl (open_loop_body E) a).trace =
      setpoint_calls a.trace ++
        idxs.flatMap (fun i =>
          [ExtCall.LPF_Clear i.val (rad_s_to_rpm (w i)),
           ExtCall.rpm_to_pulse (rad_s_to_rpm (w i))]) := by
  induction idxs generalizing a with
  | nil => exact ⟨ha, by simp⟩
  | cons j js ih =>
    have hb : ∀ i, (open_loop_body E a j).st.mem (Loc.omega i) = w i := by
      intro i
      have hf : frame_loc (Loc.omega i) = true := rfl
      simp only [open_loop_body]
      rw [hE.2.1 _ _ _ hf, hE.1 _ _ _ _ hf, ha]
    obtain ⟨h1, h2⟩ := ih (open_loop_body E a j) hb
    refine ⟨h1, ?_⟩
    rw [List.foldl_cons, h2]
    simp [open_loop_body, setpoint_calls, carries_setpoint, ha, List.flatMap_cons]

/-- The closed-loop loop keeps `omega` and adds, per index, the calls of `LPF_Clear` and
`pid_set_setpoint` with the rpm of that wheel. -/
theorem pid_loop_fold {α : Type} [Field α] (E : Externals α) (hE : respects_frame E)
    (w : Fin NUM_MOTORS → α) (idxs : List (Fin NUM_MOTORS)) (a : LoopState α)
    (ha : ∀ i, a.st.mem (Loc.omega i) = w i) :
    (∀ i, (idxs.foldl (pid_loop_body E) a).st.mem (Loc.omega i) = w i) ∧
    setpoint_calls (idxs.foldl (pid_loop_body E) a).trace =
      setpoint_calls a.trace ++
        idxs.flatMap (fun i =>
          [ExtCall.LPF_Clear i.val (rad_s_to_rpm (w i)),
           ExtCall.pid_set_setpoint i.val (rad_s_to_rpm (w i))]) := by
  induction idxs generalizing a with
  | nil => exact ⟨ha, by simp⟩
  | cons j js ih =>
    have hb : ∀ i, (pid_loop_body E a j).st.mem (Loc.omega i) = w i := by
      intro i
      have hf : frame_loc (Loc.omega i) = true := rfl
      simp only [pid_loop_body]
      rw [hE.2.2.2 _ _ _ _ hf, hE.1 _ _ _ _ hf, ha]
    obtain ⟨h1, h2⟩ := ih (pid_loop_body E a j) hb
    refine ⟨h1, ?_⟩
    rw [List.foldl_cons, h2]
    simp [pid_loop_body, setpoint_calls, carries_setpoint, ha, List.flatMap_cons]

/-- The setpoint-carrying calls of a run of `omni_control`: they are fixed by the
command. -/
theorem setpoint_calls_omni_control_mem {α : Type} [Field α] (sin cos : α → α) (M_PI : α)
    (NON_PID : Int) (E : Externals α) (hE : respects_frame E)
    (d0 p0 : Fin NUM_MOTORS → Int) (dot_x dot_y dot_theta : α) (s : MState α) :
    setpoint_calls (omni_control_mem sin cos M_PI NON_PID E d0 p0 dot_x dot_y dot_theta s).2 =
      if NON_PID = 1 then
        [ExtCall.LPF_Clear 0 (rpm_array sin cos M_PI dot_x dot_y dot_theta 0),
         ExtCall.rpm_to_pulse (rpm_array sin cos M_PI dot_x dot_y dot_theta 0),
         ExtCall.LPF_Clear 1 (rpm_array sin cos M_PI dot_x dot_y dot_theta 1),
         ExtCall.rpm_to_pulse (rpm_array sin cos M_PI dot_x dot_y dot_theta 1),
         ExtCall.LPF_Clear 2 (rpm_array sin cos M_PI dot_x dot_y dot_theta 2),
         ExtCall.rpm_to_pulse (rpm_array sin cos M_PI dot_x dot_y dot_theta 2)]
      else
        [ExtCall.LPF_Clear 0 (rpm_array sin cos M_PI dot_x dot_y dot_theta 0),
         ExtCall.pid_set_setpoint 0 (rpm_array sin cos M_PI dot_x dot_y dot_theta 0),
         ExtCall.LPF_Clear 1 (rpm_array sin cos M_PI dot_x dot_y dot_theta 1),
         ExtCall.pid_set_setpoint 1 (rpm_array sin cos M_PI dot_x dot_y dot_theta 1),
         ExtCall.LPF_Clear 2 (rpm_array sin cos M_PI dot_x dot_y dot_theta 2),
         ExtCall.pid_set_setpoint 2 (rpm_array sin cos M_PI dot_x dot_y dot_theta 2)] := by
  have hw := omega_after_solver sin cos M_PI dot_x dot_y dot_theta s.mem
  by_cases h : NON_PID = 1
  · have hl := (open_loop_fold E hE (omega_array sin cos M_PI dot_x dot_y dot_theta)
      (List.finRange NUM_MOTORS)
      { st := { s with
          mem := (calculate_wheel_speeds_mem sin cos M_PI robot_ptr (Loc.omega 0)
            (Loc.omega 1) (Loc.omega 2) (init_robot dot_x dot_y dot_theta s.mem)) },
        trace := [], direction := d0, pulse := p0 } hw).2
    simp only [omni_control_mem, if_pos h]
    simp only [setpoint_calls, List.filter_append] at hl ⊢
    rw [hl]
    simp [finRange_NUM_MOTORS, carries_setpoint, rpm_array]
  · have hl := (pid_loop_fold E hE (omega_array sin cos M_PI dot_x dot_y dot_theta)
      (List.finRange NUM_MOTORS)
      { st := { s with
          mem := (calculate_wheel_speeds_mem sin cos M_PI robot_ptr (Loc.omega 0)
            (Loc.omega 1) (Loc.omega 2) (init_robot dot_x dot_y dot_theta s.mem)) },
        trace := [], direction := d0, pulse := p0 } hw).2
    simp only [omni_control_mem, if_neg h]
    rw [hl]
    simp [finRange_NUM_MOTORS, setpoint_calls, rpm_array]

/-- The environment `storing_externals` writes only objects of its own. -/
theorem storing_externals_respects_frame {α : Type} :
    respects_frame (storing_externals : Externals α) := by
  refine ⟨?_, ?_, ?_, ?_⟩
  · intro i v s l hl
    cases l <;> simp_all [storing_externals, frame_loc, Function.update]
  · intro v s l _
    rfl
  · intro a b c s l _
    rfl
  · intro i v s l hl
    cases l <;> simp_all [storing_externals, frame_loc, Function.update]

/-- The environment `idle_externals` writes nothing. -/
theorem idle_externals_respects_frame {α : Type} :
    respects_frame (idle_externals : Externals α) :=
  ⟨fun _ _ _ _ _ => rfl, fun _ _ _ _ => rfl, fun _ _ _ _ _ _ => rfl, fun _ _ _ _ _ => rfl⟩

/-- C14: over the reals, on explicit memory. Take two runs of `omni_control` with the
same command and build mode, from arbitrary and possibly different prior states
(encoder globals, every floating-point object, the uninitialised content of the
automatic variables) and with arbitrary and possibly different behaviour of the called
functions, which may read and write the whole state except the automatic variables of
their caller. Then the calls that hand over a setpoint (`LPF_Clear`, `rpm_to_pulse`,
`pid_set_setpoint`) are the same in both runs, with the same values: the entries of the
array `rpm` computed from the command. And `calculate_wheel_speeds`, for every pointer
arguments and every memory, leaves memory unchanged at every location other than its
three output pointers. -/
theorem omni_control_setpoints_noninterference (NON_PID : Int) (E1 E2 : Externals ℝ)
    (hE1 : respects_frame E1) (hE2 : respects_frame E2)
    (d1 p1 d2 p2 : Fin NUM_MOTORS → Int) (s1 s2 : MState ℝ) (dot_x dot_y dot_theta : ℝ) :
    setpoint_calls (omni_control_mem Real.sin Real.cos Real.pi NON_PID E1 d1 p1
        dot_x dot_y dot_theta s1).2 =
      setpoint_calls (omni_control_mem Real.sin Real.cos Real.pi NON_PID E2 d2 p2
        dot_x dot_y dot_theta s2).2 ∧
    setpoint_calls (omni_control_mem Real.sin Real.cos Real.pi NON_PID E1 d1 p1
        dot_x dot_y dot_theta s1).2 =
      (if NON_PID = 1 then
        [ExtCall.LPF_Clear 0 (rpm_array Real.sin Real.cos Real.pi dot_x dot_y dot_theta 0),
         ExtCall.rpm_to_pulse (rpm_array Real.sin Real.cos Real.pi dot_x dot_y dot_theta 0),
         ExtCall.LPF_Clear 1 (rpm_array Real.sin Real.cos Real.pi dot_x dot_y dot_theta 1),
         ExtCall.rpm_to_pulse (rpm_array Real.sin Real.cos Real.pi dot_x dot_y dot_theta 1),
         ExtCall.LPF_Clear 2 (rpm_array Real.sin Real.cos Real.pi dot_x dot_y dot_theta 2),
         ExtCall.rpm_to_pulse (rpm_array Real.sin Real.cos Real.pi dot_x dot_y dot_theta 2)]
      else
        [ExtCall.LPF_Clear 0 (rpm_array Real.sin Real.cos Real.pi dot_x dot_y dot_theta 0),
         ExtCall.pid_set_setpoint 0
           (rpm_array Real.sin Real.cos Real.pi dot_x dot_y dot_theta 0),
         ExtCall.LPF_Clear 1 (rpm_array Real.sin Real.cos Real.pi dot_x dot_y dot_theta 1),
         ExtCall.pid_set_setpoint 1
           (rpm_array Real.sin Real.cos Real.pi dot_x dot_y dot_theta 1),
         ExtCall.LPF_Clear 2 (rpm_array Real.sin Real.cos Real.pi dot_x dot_y dot_theta 2),
         ExtCall.pid_set_setpoint 2
           (rpm_array Real.sin Real.cos Real.pi dot_x dot_y dot_theta 2)]) ∧
    (∀ (params : RobotParams Loc) (o1 o2 o3 l : Loc) (m : Loc → ℝ),
      l ≠ o1 → l ≠ o2 → l ≠ o3 →
      calculate_wheel_speeds_mem Real.sin Real.cos Real.pi params o1 o2 o3 m l = m l) := by
  refine ⟨?_, ?_, ?_⟩
  · rw [setpoint_calls_omni_control_mem _ _ _ _ E1 hE1,
      setpoint_calls_omni_control_mem _ _ _ _ E2 hE2]
  · exact setpoint_calls_omni_control_mem _ _ _ _ E1 hE1 _ _ _ _ _ _
  · intro params o1 o2 o3 l m h1 h2 h3
    exact calculate_wheel_speeds_mem_frame _ _ _ params o1 o2 o3 l m h1 h2 h3

/-- Witness for C14: the command `(1, 2, 3)` in open-loop mode, once with
`storing_externals` from a state with encoder count 9 and every memory cell 5, once with
`idle_externals` from the initial encoder state and every memory cell 0. The
setpoint-carrying calls agree, although the two runs as a whole differ (the motor
commands follow the state-dependent answers of `rpm_to_pulse`). -/
theorem omni_control_setpoints_noninterference_witness :
    setpoint_calls (omni_control_mem Real.sin Real.cos Real.pi 1 storing_externals
        (fun _ => 0) (fun _ => 0) 1 2 3
        { encoder := { initState with encoder1_count := 9 }, mem := fun _ => 5 }).2 =
      setpoint_calls (omni_control_mem Real.sin Real.cos Real.pi 1 idle_externals
        (fun _ => 7) (fun _ => 7) 1 2 3
        { encoder := initState, mem := fun _ => 0 }).2 ∧
    (omni_control_mem Real.sin Real.cos Real.pi 1 storing_externals
        (fun _ => 0) (fun _ => 0) 1 2 3
        { encoder := { initState with encoder1_count := 9 }, mem := fun _ => 5 }).2 ≠
      (omni_control_mem Real.sin Real.cos Real.pi 1 idle_externals
        (fun _ => 7) (fun _ => 7) 1 2 3
        { encoder := initState, mem := fun _ => 0 }).2 := by
  refine ⟨(omni_control_setpoints_noninterference 1 storing_externals idle_externals
    storing_externals_respects_frame idle_externals_respects_frame
    (fun _ => 0) (fun _ => 0) (fun _ => 7) (fun _ => 7)
    { encoder := { initState with encoder1_count := 9 }, mem := fun _ => 5 }
    { encoder := initState, mem := fun _ => 0 } 1 2 3).1, ?_⟩
  intro h
  have h2 := congrArg List.getLast? h
  simp [omni_control_mem, finRange_NUM_MOTORS, open_loop_body, storing_externals,
    idle_externals, direction_of, pulse_of, Function.update, initState] at h2

/-- The run on explicit memory agrees with `omni_control`: when the called functions
leave the automatic variables alone and `rpm_to_pulse` answers by a function `f` of its
argument, the calls of the run are the calls of `omni_control` for `f`. -/
theorem omni_control_mem_calls {α : Type} [Field α] (sin cos : α → α) (M_PI : α)
    (NON_PID : Int) (E : Externals α) (hE : respects_frame E) (f : α → Int)
    (hf : ∀ v s, (E.rpm_to_pulse v s).1 = f v)
    (d0 p0 : Fin NUM_MOTORS → Int) (dot_x dot_y dot_theta : α) (s : MState α) :
    erase_pulse_calls
        (omni_control_mem sin cos M_PI NON_PID E d0 p0 dot_x dot_y dot_theta s).2 =
      omni_control sin cos M_PI NON_PID f dot_x dot_y dot_theta := by
  have hw := omega_after_solver sin cos M_PI dot_x dot_y dot_theta s.mem
  have f0 : ∀ i, frame_loc (Loc.omega i) = true := fun _ => rfl
  by_cases h : NON_PID = 1
  · simp [omni_control_mem, omni_control, h, finRange_NUM_MOTORS, open_loop_body,
      erase_pulse_calls, hE.1 _ _ _ _ (f0 _), hE.2.1 _ _ _ (f0 _), hw, hf, rpm_array,
      Function.update]
  · simp [omni_control_mem, omni_control, h, finRange_NUM_MOTORS, pid_loop_body,
      erase_pulse_calls, hE.1 _ _ _ _ (f0 _), hE.2.2.2 _ _ _ _ (f0 _), hw, rpm_array]

end Omni
